import Mathlib

/-!
The game engine of `pkg/backend`, embedded in Lean.

A shallow embedding of `backend.go`, `map.go` and `player.go`.

Conventions of the embedding:

* a Go `int` is an integer of 64 bits: the result of an arithmetic operation on coordinates,
  scores and durations is wrapped by `wrap64`, and a `Coordinate` carries the proof that its
  fields are in range; a length or an index of a slice is a `Nat`;
* a `time.Time` is an integer counting nanoseconds, a `time.Duration` a Go `int64` of
  nanoseconds;
* a Go map that is only read by key (`lastAction`, `Score`) is a function into `Option`;
* the entity table `Entities`, which the engine also enumerates with `range`, is the list of
  its values in enumeration order, keyed by `Entity.ID` (the only writers, `AddEntity` and
  `UpdateEntity`, store an entity under its own identifier); `Game.WF` says the keys are
  distinct, as the keys of a Go map are. Go leaves the order of `range` over a map
  unspecified: a statement about every table is a statement about every order;
* entities are held by value: the write through the `*Player` pointer in `Move` is the
  replacement of the table entry;
* `ChangeChannel`, a channel of capacity one that the engine only sends on, is the optional
  change waiting in it;
* a run-time panic is an `Except.error`.
-/

namespace Backend

/-! ## Identifiers -/

/-- The bytes of a `uuid.UUID`. -/
structure UUID where
  bytes : List (Fin 256)
deriving DecidableEq

/-- One lower-case hexadecimal digit. -/
def hexDigit (n : Nat) : Char :=
  "0123456789abcdef".toList.getD n '0'

/-- The two hexadecimal digits of a byte. -/
def hexByte (b : Fin 256) : List Char :=
  [hexDigit (b.val / 16), hexDigit (b.val % 16)]

/-- The canonical text of an identifier: the bytes in hexadecimal, a dash before the bytes
number 4, 6, 8 and 10. -/
def encodeHex : Nat → List (Fin 256) → List Char
  | _, [] => []
  | i, b :: bs =>
    (if i = 4 ∨ i = 6 ∨ i = 8 ∨ i = 10 then ['-'] else []) ++ hexByte b ++ encodeHex (i + 1) bs

/-- The method `uuid.UUID.String`. -/
def UUID.String (u : UUID) : String :=
  String.mk (encodeHex 0 u.bytes)

/-- The zero identifier `uuid.Nil`. -/
def UUID.Nil : UUID := ⟨List.replicate 16 0⟩

/-! ## Time -/

/-- An instant, in nanoseconds. -/
abbrev Time := Int

/-- A `time.Duration`, in nanoseconds. -/
abbrev Duration := Int

def Millisecond : Duration := 1000000

def Second : Duration := 1000 * Millisecond

def roundOverScore : Int := 10

def newRoundWaitTime : Duration := 10 * Second

def collisionCheckFrequency : Duration := 10 * Millisecond

def moveThrottle : Duration := 100 * Millisecond

def laserThrottle : Duration := 500 * Millisecond

def laserSpeed : Int := 50

/-! ## Machine integers -/

/-- The value a Go `int` or `int64` holds after an operation whose exact result is `n`:
the representative of `n` modulo `2^64` between `-2^63` and `2^63 - 1`. -/
def wrap64 (n : Int) : Int :=
  (n + 9223372036854775808) % 18446744073709551616 - 9223372036854775808

/-- The values of a Go `int`. -/
def isInt64 (n : Int) : Prop :=
  -9223372036854775808 ≤ n ∧ n < 9223372036854775808

instance (n : Int) : Decidable (isInt64 n) := by
  unfold isInt64
  infer_instance

/-- The wrapped value, with the proof that it is a value of a Go `int`. -/
def wrapInt (n : Int) : { m : Int // isInt64 m } :=
  ⟨wrap64 n, by unfold isInt64 wrap64; omega⟩

/-! ## Coordinates and directions -/

/-- A `Coordinate`: two Go `int`s. -/
structure Coordinate where
  X : Int
  Y : Int
  okX : isInt64 X := by decide
  okY : isInt64 Y := by decide
deriving DecidableEq

/-- The value of `Coordinate{X: x, Y: y}` when the exact values of the two expressions are
`x` and `y`. -/
def Coordinate.wrapped (x y : Int) : Coordinate :=
  { X := wrap64 x, Y := wrap64 y, okX := (wrapInt x).2, okY := (wrapInt y).2 }

def Coordinate.Add (c1 c2 : Coordinate) : Coordinate :=
  Coordinate.wrapped (c1.X + c2.X) (c1.Y + c2.Y)

/-- A `Direction` is a Go `int`; the five constants are 0 to 4. -/
abbrev Direction := Int

def DirectionUp : Direction := 0

def DirectionDown : Direction := 1

def DirectionLeft : Direction := 2

def DirectionRight : Direction := 3

def DirectionStop : Direction := 4

/-! ## Entities -/

/-- A `Player` (`player.go`); the embedded interface fields carry no data. -/
structure Player where
  UUID : UUID
  CurrentPosition : Coordinate
  Name : String
  Icon : Char
deriving DecidableEq

def Player.Position (p : Player) : Coordinate :=
  p.CurrentPosition

def Player.Move (p : Player) (c : Coordinate) : Player :=
  { p with CurrentPosition := c }

/-- Modelled from the spec: the entity kinds other than `Player` (the laser projectile) are
not declared in the source. Such an entity has an identifier, a position when it implements
`Positioner`, and a flag saying whether it implements `Mover`; its `Move` is the position
mutator of the data model. -/
structure OtherEntity where
  UUID : UUID
  position : Option Coordinate
  mover : Bool
deriving DecidableEq

/-- A value of interface type `Identifier` held by the table. -/
inductive Entity where
  | player (p : Player)
  | other (o : OtherEntity)
deriving DecidableEq

/-- The method `ID` of `IdentifierBase`. -/
def Entity.ID : Entity → UUID
  | .player p => p.UUID
  | .other o => o.UUID

/-- The type assertion `entity.(*Player)`. -/
def Entity.isPlayer : Entity → Bool
  | .player _ => true
  | .other _ => false

/-- The type assertion `entity.(Positioner)` followed by `Position()`; `none` when the
assertion fails. -/
def Entity.Position? : Entity → Option Coordinate
  | .player p => some p.Position
  | .other o => o.position

/-- The type assertion `entity.(Mover)`. -/
def Entity.isMover : Entity → Bool
  | .player _ => true
  | .other o => o.mover

/-- The method `Move` of a `Mover`. -/
def Entity.Move (e : Entity) (c : Coordinate) : Entity :=
  match e with
  | .player p => .player (p.Move c)
  | .other o => .other { o with position := o.position.map (fun _ => c) }

/-! ## Changes -/

inductive Change where
  | MoveChange (Entity : Entity) (Direction : Direction) (Position : Coordinate)
  | RoundOverChange
  | RoundStartChange
  | AddEntityChange (Entity : Entity)
  | RemoveEntityChange (Entity : Entity)
  | PlayerRespawnChange (Player : Player) (KilledByID : UUID)
deriving DecidableEq

/-! ## The map -/

inductive MapType where
  | MapTypeNone
  | MapTypeWall
  | MapTypeSpawn
deriving DecidableEq

/-- The run-time panics the engine can raise. -/
inductive Panic where
  | indexOutOfRange
  | divideByZero
deriving DecidableEq

/-! ## The game state -/

structure Game where
  Entities : List Entity
  gameMap : List (List Char)
  ChangeChannel : Option Change
  lastAction : String → Option Time
  Score : UUID → Option Int
  NewRoundAt : Time
  RoundWinner : UUID
  WaitForRound : Bool
  IsAuthoritative : Bool
  spawnPointIndex : Int

/-- The keys of the entity table are distinct. -/
def Game.WF (game : Game) : Prop :=
  (game.Entities.map Entity.ID).Nodup

/-! ## The map index (`map.go`) -/

/-- The map from `MapType` to coordinate slices that `GetMapByType` builds; an absent key
reads as the empty slice. -/
abbrev Symbols := MapType → List Coordinate

/-- The statement `symbols[mapType] = append(symbols[mapType], c)`. -/
def Symbols.append (symbols : Symbols) (mapType : MapType) (c : Coordinate) : Symbols :=
  fun t => if t = mapType then symbols t ++ [c] else symbols t

/-- The `switch col` of `GetMapByType`. -/
def classify (col : Char) : MapType :=
  if col = '█' then MapType.MapTypeWall
  else if col = 'S' then MapType.MapTypeSpawn
  else MapType.MapTypeNone

/-- The result of `GetMapDimensions`: indexing `gameMap[0]` panics on an empty grid. -/
def Game.GetMapDimensions (game : Game) : Except Panic (Nat × Nat) :=
  match game.gameMap with
  | [] => .error Panic.indexOutOfRange
  | row0 :: _ => .ok (row0.length, game.gameMap.length)

/-- The inner loop `for mapX, col := range row`, from column `mapX` on. -/
def scanRow (mapCenterX mapCenterY : Nat) (mapY : Nat) : Nat → List Char → Symbols → Symbols
  | _, [], symbols => symbols
  | mapX, col :: rest, symbols =>
    scanRow mapCenterX mapCenterY mapY (mapX + 1) rest
      (symbols.append (classify col)
        (Coordinate.wrapped ((mapX : Int) - (mapCenterX : Int))
          ((mapY : Int) - (mapCenterY : Int))))

/-- The outer loop `for mapY, row := range game.gameMap`, from row `mapY` on. -/
def scanRows (mapCenterX mapCenterY : Nat) : Nat → List (List Char) → Symbols → Symbols
  | _, [], symbols => symbols
  | mapY, row :: rest, symbols =>
    scanRows mapCenterX mapCenterY (mapY + 1) rest (scanRow mapCenterX mapCenterY mapY 0 row symbols)

def Game.GetMapByType (game : Game) : Except Panic Symbols :=
  match game.GetMapDimensions with
  | .error p => .error p
  | .ok (width, height) =>
    let mapCenterX := width / 2
    let mapCenterY := height / 2
    .ok (scanRows mapCenterX mapCenterY 0 game.gameMap (fun _ => []))

/-! ## The entity table -/

/-- The collision map: the entities with a position, by position, in enumeration order. An
absent key reads as the empty slice. -/
abbrev CollisionMap := Coordinate → List Entity

/-- The loop of `getCollisionMap` over the entities still to enumerate. -/
def collisionMapLoop : List Entity → CollisionMap → CollisionMap
  | [], collisionMap => collisionMap
  | entity :: rest, collisionMap =>
    match entity.Position? with
    | none => collisionMapLoop rest collisionMap
    | some position =>
      collisionMapLoop rest
        (fun c => if c = position then collisionMap c ++ [entity] else collisionMap c)

def Game.getCollisionMap (game : Game) : CollisionMap :=
  collisionMapLoop game.Entities (fun _ => [])

/-- The assignment `game.Entities[entity.ID()] = entity`: the entry of that key is replaced,
or a new entry is added. -/
def Game.AddEntity (game : Game) (entity : Entity) : Game :=
  if game.Entities.any (fun e => e.ID = entity.ID) then
    { game with Entities := game.Entities.map (fun e => if e.ID = entity.ID then entity else e) }
  else
    { game with Entities := game.Entities ++ [entity] }

def Game.UpdateEntity (game : Game) (entity : Entity) : Game :=
  game.AddEntity entity

/-- The lookup `game.Entities[id]`; `none` is the nil interface value. -/
def Game.GetEntity (game : Game) (id : UUID) : Option Entity :=
  game.Entities.find? (fun e => e.ID = id)

def Game.RemoveEntity (game : Game) (id : UUID) : Game :=
  { game with Entities := game.Entities.filter (fun e => e.ID ≠ id) }

/-- The call `mover.Move(position)` on the entity stored under `id`, seen from the table. -/
def Game.moveEntity (game : Game) (id : UUID) (position : Coordinate) : Game :=
  { game with
    Entities := game.Entities.map (fun e => if e.ID = id then e.Move position else e) }

/-! ## Scores, the throttle ledger, the change channel -/

/-- The statement `game.Score[id]++`: an absent tally counts as zero, the sum wraps. -/
def Game.AddScore (game : Game) (id : UUID) : Game :=
  { game with
    Score := fun k => if k = id then some (wrap64 ((game.Score id).getD 0 + 1)) else game.Score k }

/-- The value read by `game.Score[id]`. -/
def Game.scoreOf (game : Game) (id : UUID) : Int :=
  (game.Score id).getD 0

def Game.checkLastActionTime (game : Game) (actionKey : String) (created : Time)
    (throttle : Duration) : Bool :=
  match game.lastAction actionKey with
  | some lastAction => if lastAction > created + wrap64 ((-1) * throttle) then false else true
  | none => true

def Game.updateLastActionTime (game : Game) (actionKey : String) (created : Time) : Game :=
  { game with lastAction := fun k => if k = actionKey then some created else game.lastAction k }

/-- The non-blocking send on the channel of capacity one. -/
def Game.sendChange (game : Game) (change : Change) : Game :=
  match game.ChangeChannel with
  | none => { game with ChangeChannel := some change }
  | some _ => game

/-! ## Rounds -/

/-- The loop of `startNewRound` over the entities still to enumerate, `i` players placed. -/
def respawnLoop (spawnPoints : List Coordinate) : List Entity → Nat → Except Panic (List Entity)
  | [], _ => .ok []
  | .player player :: rest, i =>
    if spawnPoints.length = 0 then .error Panic.divideByZero
    else
      match spawnPoints[i % spawnPoints.length]? with
      | none => .error Panic.indexOutOfRange
      | some c =>
        match respawnLoop spawnPoints rest (i + 1) with
        | .error p => .error p
        | .ok rest1 => .ok (.player (player.Move c) :: rest1)
  | .other o :: rest, i =>
    match respawnLoop spawnPoints rest i with
    | .error p => .error p
    | .ok rest1 => .ok (.other o :: rest1)

/-- One call of `startNewRound`. The loop enumerates the table in the order of the list;
Go picks the order of `range` over a map anew for every loop, so the order of the list
stands for the order of this call only. -/
def Game.startNewRound (game : Game) : Except Panic Game :=
  let game1 := { game with WaitForRound := false, Score := fun _ => none }
  match game1.GetMapByType with
  | .error p => .error p
  | .ok symbols =>
    let spawnPoints := symbols MapType.MapTypeSpawn
    match respawnLoop spawnPoints game1.Entities 0 with
    | .error p => .error p
    | .ok entities =>
      .ok ({ game1 with Entities := entities }.sendChange Change.RoundStartChange)

/-- The synchronous part of `queueNewRound`; `now` is the reading of `time.Now()`. The
goroutine it starts runs `startNewRound` after `newRoundWaitTime`. -/
def Game.queueNewRound (game : Game) (roundWinner : UUID) (now : Time) : Game :=
  { game with
    WaitForRound := true
    NewRoundAt := now + newRoundWaitTime
    RoundWinner := roundWinner }.sendChange Change.RoundOverChange

/-- The default map, a grid of 40 rows of 40 cells. -/
def MapDefault : List (List Char) := [
  ['█', '█', '█', '█', '█', '█', '█', '█', '█', '█', '█', '█', '█', '█', '█', '█', '█', '█', '█', '█', '█', '█', '█', '█', '█', '█', '█', '█', '█', '█', '█', '█', '█', '█', '█', '█', '█', '█', '█', '█'],
  ['█', ' ', ' ', ' ', ' ', ' ', ' ', ' ', ' ', ' ', ' ', ' ', ' ', ' ', ' ', ' ', ' ', ' ', ' ', ' ', ' ', ' ', ' ', ' ', ' ', ' ', ' ', ' ', ' ', ' ', ' ', ' ', ' ', ' ', ' ', ' ', ' ', ' ', ' ', '█'],
  ['█', ' ', ' ', ' ', ' ', ' ', ' ', ' ', ' ', ' ', ' ', ' ', ' ', ' ', ' ', ' ', ' ', ' ', ' ', ' ', ' ', ' ', ' ', ' ', ' ', ' ', ' ', ' ', ' ', ' ', ' ', ' ', ' ', ' ', ' ', ' ', ' ', ' ', ' ', '█'],
  ['█', ' ', ' ', '█', ' ', ' ', '█', ' ', ' ', ' ', ' ', ' ', ' ', ' ', ' ', ' ', ' ', ' ', ' ', ' ', ' ', ' ', ' ', ' ', ' ', ' ', ' ', ' ', ' ', ' ', '█', '█', '█', '█', '█', '█', '█', ' ', 'S', '█'],
  ['█', ' ', ' ', ' ', ' ', ' ', ' ', ' ', ' ', ' ', ' ', ' ', ' ', ' ', ' ', ' ', ' ', ' ', ' ', ' ', 'S', ' ', ' ', ' ', ' ', ' ', ' ', ' ', ' ', ' ', ' ', ' ', ' ', ' ', ' ', ' ', '█', ' ', ' ', '█'],
  ['█', ' ', ' ', 'S', ' ', '█', ' ', ' ', ' ', ' ', ' ', ' ', ' ', ' ', ' ', ' ', ' ', ' ', ' ', ' ', ' ', ' ', ' ', ' ', ' ', ' ', ' ', ' ', ' ', ' ', ' ', ' ', ' ', ' ', ' ', ' ', '█', ' ', ' ', '█'],
  ['█', ' ', ' ', ' ', ' ', ' ', ' ', ' ', ' ', ' ', ' ', ' ', ' ', ' ', ' ', ' ', ' ', ' ', ' ', ' ', ' ', ' ', ' ', ' ', ' ', ' ', ' ', ' ', ' ', ' ', ' ', ' ', ' ', ' ', ' ', ' ', '█', ' ', ' ', '█'],
  ['█', ' ', ' ', '█', ' ', ' ', '█', ' ', ' ', ' ', ' ', ' ', ' ', ' ', ' ', ' ', ' ', ' ', ' ', ' ', ' ', ' ', ' ', ' ', ' ', ' ', ' ', ' ', ' ', ' ', ' ', ' ', ' ', ' ', ' ', ' ', '█', ' ', ' ', '█'],
  ['█', ' ', ' ', ' ', ' ', ' ', ' ', ' ', ' ', ' ', ' ', ' ', ' ', ' ', ' ', ' ', ' ', ' ', ' ', ' ', ' ', ' ', ' ', ' ', ' ', ' ', ' ', ' ', ' ', ' ', ' ', ' ', ' ', ' ', ' ', ' ', '█', ' ', ' ', '█'],
  ['█', ' ', ' ', ' ', ' ', '█', ' ', ' ', ' ', ' ', ' ', ' ', ' ', ' ', ' ', ' ', ' ', ' ', ' ', ' ', ' ', ' ', ' ', ' ', ' ', ' ', ' ', ' ', ' ', ' ', ' ', ' ', ' ', ' ', ' ', ' ', '█', ' ', ' ', '█'],
  ['█', ' ', ' ', ' ', ' ', ' ', ' ', ' ', ' ', ' ', ' ', ' ', ' ', ' ', ' ', ' ', ' ', ' ', ' ', ' ', ' ', ' ', ' ', ' ', ' ', ' ', ' ', ' ', ' ', ' ', ' ', ' ', ' ', ' ', ' ', ' ', ' ', ' ', ' ', '█'],
  ['█', ' ', ' ', '█', ' ', ' ', '█', ' ', ' ', ' ', ' ', ' ', ' ', ' ', ' ', ' ', ' ', ' ', '█', ' ', ' ', ' ', '█', ' ', ' ', ' ', ' ', ' ', ' ', ' ', ' ', ' ', ' ', ' ', ' ', ' ', ' ', ' ', ' ', '█'],
  ['█', ' ', ' ', ' ', ' ', ' ', ' ', ' ', ' ', ' ', ' ', ' ', ' ', ' ', ' ', ' ', ' ', ' ', '█', '█', '█', '█', '█', ' ', ' ', ' ', ' ', ' ', ' ', ' ', ' ', ' ', ' ', ' ', ' ', ' ', ' ', ' ', ' ', '█'],
  ['█', ' ', ' ', ' ', ' ', ' ', ' ', ' ', ' ', ' ', ' ', ' ', ' ', ' ', ' ', ' ', ' ', ' ', ' ', ' ', ' ', ' ', ' ', ' ', ' ', ' ', ' ', ' ', ' ', ' ', ' ', ' ', ' ', ' ', ' ', ' ', ' ', ' ', ' ', '█'],
  ['█', ' ', ' ', ' ', ' ', ' ', ' ', ' ', ' ', ' ', ' ', ' ', ' ', ' ', ' ', ' ', ' ', ' ', ' ', ' ', ' ', ' ', ' ', ' ', ' ', ' ', ' ', ' ', ' ', ' ', ' ', ' ', ' ', ' ', ' ', ' ', ' ', ' ', ' ', '█'],
  ['█', ' ', ' ', ' ', ' ', ' ', ' ', ' ', ' ', ' ', ' ', ' ', ' ', ' ', ' ', ' ', ' ', ' ', ' ', ' ', ' ', ' ', ' ', ' ', ' ', ' ', ' ', '█', ' ', ' ', ' ', ' ', ' ', ' ', ' ', ' ', ' ', ' ', ' ', '█'],
  ['█', ' ', ' ', ' ', ' ', ' ', ' ', ' ', ' ', ' ', ' ', ' ', ' ', ' ', ' ', ' ', ' ', ' ', ' ', ' ', ' ', ' ', ' ', ' ', ' ', ' ', ' ', '█', ' ', ' ', ' ', ' ', ' ', ' ', ' ', ' ', ' ', ' ', ' ', '█'],
  ['█', ' ', ' ', ' ', ' ', ' ', ' ', ' ', ' ', ' ', ' ', ' ', ' ', ' ', ' ', ' ', ' ', ' ', ' ', ' ', ' ', ' ', ' ', ' ', ' ', ' ', ' ', '█', 'S', ' ', ' ', ' ', ' ', ' ', ' ', ' ', ' ', ' ', ' ', '█'],
  ['█', ' ', ' ', ' ', ' ', ' ', ' ', ' ', ' ', ' ', ' ', ' ', ' ', ' ', ' ', ' ', ' ', ' ', ' ', ' ', ' ', ' ', ' ', ' ', ' ', ' ', ' ', '█', ' ', ' ', ' ', ' ', ' ', ' ', ' ', ' ', ' ', ' ', ' ', '█'],
  ['█', ' ', ' ', ' ', ' ', ' ', ' ', ' ', ' ', ' ', ' ', ' ', ' ', ' ', ' ', ' ', ' ', ' ', ' ', ' ', ' ', ' ', ' ', ' ', ' ', ' ', ' ', ' ', ' ', ' ', ' ', ' ', ' ', ' ', ' ', ' ', ' ', ' ', ' ', '█'],
  ['█', ' ', ' ', ' ', ' ', ' ', ' ', ' ', ' ', ' ', ' ', ' ', ' ', ' ', ' ', ' ', ' ', ' ', ' ', ' ', 'S', ' ', ' ', ' ', ' ', ' ', ' ', ' ', ' ', ' ', ' ', ' ', ' ', ' ', ' ', ' ', ' ', ' ', ' ', '█'],
  ['█', ' ', ' ', ' ', ' ', ' ', ' ', ' ', ' ', ' ', ' ', ' ', ' ', ' ', ' ', ' ', ' ', ' ', ' ', ' ', ' ', ' ', ' ', ' ', ' ', ' ', ' ', ' ', ' ', ' ', ' ', ' ', ' ', ' ', ' ', ' ', ' ', ' ', ' ', '█'],
  ['█', ' ', ' ', ' ', ' ', ' ', ' ', ' ', ' ', ' ', ' ', ' ', ' ', '█', ' ', ' ', ' ', ' ', ' ', ' ', ' ', ' ', ' ', ' ', ' ', ' ', ' ', ' ', ' ', ' ', ' ', ' ', ' ', ' ', ' ', ' ', ' ', ' ', ' ', '█'],
  ['█', ' ', ' ', ' ', ' ', ' ', ' ', ' ', ' ', ' ', ' ', ' ', ' ', '█', ' ', ' ', ' ', ' ', ' ', ' ', ' ', ' ', ' ', ' ', ' ', ' ', ' ', ' ', ' ', ' ', ' ', ' ', ' ', ' ', ' ', ' ', ' ', ' ', ' ', '█'],
  ['█', ' ', ' ', ' ', ' ', ' ', ' ', ' ', ' ', ' ', ' ', ' ', 'S', '█', ' ', ' ', ' ', ' ', ' ', ' ', ' ', ' ', ' ', ' ', ' ', ' ', ' ', ' ', ' ', ' ', ' ', ' ', ' ', ' ', ' ', ' ', ' ', ' ', ' ', '█'],
  ['█', ' ', ' ', ' ', ' ', ' ', ' ', ' ', ' ', ' ', ' ', ' ', ' ', '█', ' ', ' ', ' ', ' ', ' ', ' ', ' ', ' ', ' ', ' ', ' ', ' ', ' ', ' ', ' ', ' ', ' ', ' ', ' ', ' ', ' ', ' ', ' ', ' ', ' ', '█'],
  ['█', ' ', ' ', '█', '█', '█', '█', ' ', ' ', ' ', ' ', ' ', ' ', ' ', ' ', ' ', ' ', ' ', ' ', ' ', ' ', ' ', ' ', ' ', ' ', ' ', ' ', ' ', ' ', ' ', ' ', ' ', ' ', ' ', ' ', ' ', ' ', ' ', ' ', '█'],
  ['█', ' ', ' ', ' ', ' ', ' ', '█', ' ', ' ', ' ', ' ', ' ', ' ', ' ', ' ', ' ', ' ', ' ', ' ', ' ', ' ', ' ', ' ', ' ', ' ', ' ', ' ', ' ', ' ', ' ', ' ', ' ', ' ', ' ', ' ', ' ', ' ', ' ', ' ', '█'],
  ['█', ' ', ' ', ' ', ' ', ' ', '█', ' ', ' ', ' ', ' ', ' ', ' ', ' ', ' ', ' ', ' ', ' ', '█', '█', '█', '█', '█', ' ', ' ', ' ', ' ', ' ', ' ', ' ', ' ', ' ', ' ', ' ', ' ', ' ', ' ', ' ', ' ', '█'],
  ['█', ' ', ' ', ' ', ' ', ' ', '█', ' ', ' ', ' ', ' ', ' ', ' ', ' ', ' ', ' ', ' ', ' ', '█', ' ', ' ', ' ', '█', ' ', ' ', ' ', ' ', ' ', ' ', ' ', ' ', ' ', ' ', ' ', ' ', ' ', ' ', ' ', ' ', '█'],
  ['█', ' ', ' ', ' ', ' ', ' ', '█', ' ', ' ', ' ', ' ', ' ', ' ', ' ', ' ', ' ', ' ', ' ', ' ', ' ', ' ', ' ', ' ', ' ', ' ', ' ', ' ', ' ', ' ', ' ', ' ', ' ', ' ', ' ', ' ', ' ', ' ', ' ', ' ', '█'],
  ['█', ' ', ' ', ' ', ' ', ' ', '█', ' ', ' ', ' ', ' ', ' ', ' ', ' ', ' ', ' ', ' ', ' ', ' ', ' ', ' ', ' ', ' ', ' ', ' ', ' ', ' ', ' ', ' ', ' ', ' ', ' ', ' ', ' ', ' ', ' ', ' ', ' ', ' ', '█'],
  ['█', ' ', ' ', 'S', ' ', ' ', '█', ' ', ' ', ' ', ' ', ' ', ' ', ' ', ' ', ' ', ' ', ' ', ' ', ' ', ' ', ' ', ' ', ' ', ' ', ' ', ' ', ' ', ' ', ' ', ' ', ' ', ' ', ' ', ' ', ' ', 'S', ' ', ' ', '█'],
  ['█', ' ', ' ', ' ', ' ', ' ', '█', ' ', ' ', ' ', ' ', ' ', ' ', ' ', ' ', ' ', ' ', ' ', ' ', ' ', ' ', ' ', ' ', ' ', ' ', ' ', ' ', ' ', ' ', ' ', ' ', ' ', ' ', ' ', ' ', ' ', ' ', ' ', ' ', '█'],
  ['█', ' ', ' ', ' ', ' ', ' ', '█', ' ', ' ', ' ', ' ', ' ', ' ', ' ', ' ', ' ', ' ', ' ', ' ', ' ', ' ', ' ', ' ', ' ', ' ', ' ', ' ', ' ', ' ', ' ', ' ', ' ', ' ', ' ', ' ', ' ', ' ', ' ', ' ', '█'],
  ['█', ' ', ' ', ' ', ' ', ' ', '█', ' ', ' ', ' ', ' ', ' ', ' ', ' ', ' ', ' ', ' ', ' ', ' ', ' ', 'S', ' ', ' ', ' ', ' ', ' ', ' ', ' ', ' ', ' ', ' ', ' ', ' ', ' ', ' ', ' ', ' ', ' ', ' ', '█'],
  ['█', ' ', ' ', ' ', ' ', ' ', '█', ' ', ' ', ' ', ' ', ' ', ' ', ' ', ' ', ' ', ' ', ' ', ' ', ' ', ' ', ' ', ' ', ' ', ' ', ' ', ' ', ' ', ' ', ' ', ' ', ' ', ' ', ' ', ' ', ' ', ' ', ' ', ' ', '█'],
  ['█', ' ', ' ', ' ', ' ', ' ', ' ', ' ', ' ', ' ', ' ', ' ', ' ', ' ', ' ', ' ', ' ', ' ', ' ', ' ', ' ', ' ', ' ', ' ', ' ', ' ', ' ', ' ', ' ', ' ', ' ', ' ', ' ', ' ', ' ', ' ', ' ', ' ', ' ', '█'],
  ['█', ' ', ' ', ' ', ' ', ' ', ' ', ' ', ' ', ' ', ' ', ' ', ' ', ' ', ' ', ' ', ' ', ' ', ' ', ' ', ' ', ' ', ' ', ' ', ' ', ' ', ' ', ' ', ' ', ' ', ' ', ' ', ' ', ' ', ' ', ' ', ' ', ' ', ' ', '█'],
  ['█', '█', '█', '█', '█', '█', '█', '█', '█', '█', '█', '█', '█', '█', '█', '█', '█', '█', '█', '█', '█', '█', '█', '█', '█', '█', '█', '█', '█', '█', '█', '█', '█', '█', '█', '█', '█', '█', '█', '█']
]

def NewGame : Game :=
  { Entities := []
    gameMap := MapDefault
    ChangeChannel := none
    lastAction := fun _ => none
    Score := fun _ => none
    NewRoundAt := 0
    RoundWinner := UUID.Nil
    WaitForRound := false
    IsAuthoritative := true
    spawnPointIndex := 0 }

/-! ## Actions -/

/-- A value of interface type `Action`. -/
structure Action where
  Perform : Game → Except Panic Game

structure MoveAction where
  Direction : Direction
  ID : UUID
  Created : Time
deriving DecidableEq

/-- The key `fmt.Sprintf("%T:%s", action, entity.ID().String())` of a move. -/
def MoveAction.actionKey (id : UUID) : String :=
  "backend.MoveAction:" ++ id.String

def MoveAction.Perform (action : MoveAction) (game : Game) : Except Panic Game :=
  match game.GetEntity action.ID with
  | none => .ok game
  | some entity =>
    if entity.isMover = false then .ok game
    else
      match entity.Position? with
      | none => .ok game
      | some current =>
        let actionKey := MoveAction.actionKey entity.ID
        if game.checkLastActionTime actionKey action.Created moveThrottle = false then .ok game
        else
          let position : Coordinate :=
            if action.Direction = DirectionUp then
              { current with Y := wrap64 (current.Y - 1), okY := (wrapInt (current.Y - 1)).2 }
            else if action.Direction = DirectionDown then
              { current with Y := wrap64 (current.Y + 1), okY := (wrapInt (current.Y + 1)).2 }
            else if action.Direction = DirectionLeft then
              { current with X := wrap64 (current.X - 1), okX := (wrapInt (current.X - 1)).2 }
            else if action.Direction = DirectionRight then
              { current with X := wrap64 (current.X + 1), okX := (wrapInt (current.X + 1)).2 }
            else current
          match game.GetMapByType with
          | .error p => .error p
          | .ok symbols =>
            if (symbols MapType.MapTypeWall).any (fun wall => position = wall) then .ok game
            else if (game.getCollisionMap position).any Entity.isPlayer then .ok game
            else
              let game1 := game.moveEntity action.ID position
              let change := Change.MoveChange (entity.Move position) action.Direction position
              .ok ((game1.sendChange change).updateLastActionTime actionKey action.Created)

def MoveAction.toAction (action : MoveAction) : Action :=
  { Perform := action.Perform }

/-- One turn of the loop of `watchActions`, `action` being the action received. -/
def Game.watchActions (game : Game) (action : Action) : Except Panic Game :=
  if game.WaitForRound then .ok game
  else action.Perform game

/-- A sequence of `MoveAction.Perform` calls, in order. -/
def performAll : List MoveAction → Game → Except Panic Game
  | [], game => .ok game
  | action :: rest, game =>
    match action.Perform game with
    | .error p => .error p
    | .ok game1 => performAll rest game1

/-- The loop of `watchActions` over a sequence of moves received in order. -/
def watchMoves : List MoveAction → Game → Except Panic Game
  | [], game => .ok game
  | action :: rest, game =>
    match game.watchActions action.toAction with
    | .error p => .error p
    | .ok game1 => watchMoves rest game1

/-! ## Notions used by the statements -/

/-- The unit vector of a direction; a value that is none of the four moves displaces by
nothing. The candidate of a move is `current.Add (displacement d)`, a sum of Go `int`s. -/
def displacement (d : Direction) : Coordinate :=
  if d = DirectionUp then { X := 0, Y := -1 }
  else if d = DirectionDown then { X := 0, Y := 1 }
  else if d = DirectionLeft then { X := -1, Y := 0 }
  else if d = DirectionRight then { X := 1, Y := 0 }
  else { X := 0, Y := 0 }

/-- The state a move leaves when it passes every gate: the entity moved to `position`, the
change offered to the channel, the ledger entry written. -/
def MoveAction.commit (action : MoveAction) (game : Game) (entity : Entity)
    (position : Coordinate) : Game :=
  ((game.moveEntity action.ID position).sendChange
    (Change.MoveChange (entity.Move position) action.Direction position)).updateLastActionTime
      (MoveAction.actionKey entity.ID) action.Created

/-- No two Player entities with distinct identifiers are at the same coordinate. -/
def Game.NoOverlap (game : Game) : Prop :=
  ∀ e1 ∈ game.Entities, ∀ e2 ∈ game.Entities,
    e1.isPlayer = true → e2.isPlayer = true → e1.ID ≠ e2.ID → e1.Position? ≠ e2.Position?

instance (game : Game) : Decidable game.NoOverlap := by
  unfold Game.NoOverlap
  infer_instance

instance (game : Game) : Decidable game.WF := by
  unfold Game.WF
  infer_instance

/-- The gates of `MoveAction.Perform`, in the order of the source. -/
structure MoveAction.Admitted (action : MoveAction) (game : Game) (entity : Entity)
    (current : Coordinate) (symbols : Symbols) : Prop where
  found : game.GetEntity action.ID = some entity
  mover : entity.isMover = true
  positioner : entity.Position? = some current
  allowed : game.checkLastActionTime (MoveAction.actionKey entity.ID) action.Created
    moveThrottle = true
  map : game.GetMapByType = .ok symbols
  noWall : current.Add (displacement action.Direction) ∉ symbols MapType.MapTypeWall
  noPlayer : (game.getCollisionMap (current.Add (displacement action.Direction))).any
    Entity.isPlayer = false

/-- The coordinate the loops of `GetMapByType` append for the cell of column `p.1` with glyph
`p.2` in row `mapY`, when the `switch` classifies the glyph as `t`. -/
def cellOfType (mapCenterX mapCenterY mapY : Nat) (t : MapType) (p : Nat × Char) :
    Option Coordinate :=
  if classify p.2 = t then
    some (Coordinate.wrapped ((p.1 : Int) - (mapCenterX : Int))
      ((mapY : Int) - (mapCenterY : Int)))
  else none

/-! ## The map index as the specification words it -/

/-- The classification of a glyph: `'█'` is a wall, `'S'` a spawn point, anything else
nothing. -/
def isGlyphOf (t : MapType) (glyph : Char) : Prop :=
  match t with
  | .MapTypeWall => glyph = '█'
  | .MapTypeSpawn => glyph = 'S'
  | .MapTypeNone => glyph ≠ '█' ∧ glyph ≠ 'S'

instance (t : MapType) (glyph : Char) : Decidable (isGlyphOf t glyph) := by
  unfold isGlyphOf
  cases t <;> infer_instance

/-- The raw cells `(x, y)` of a grid of width `w` and height `h`, each once, row by row. -/
def rawCells (w h : Nat) : List (Nat × Nat) :=
  (List.range h).flatMap (fun y => (List.range w).map (fun x => (x, y)))

/-- The glyph of the raw cell `(x, y)`. -/
def glyphAt (grid : List (List Char)) (x y : Nat) : Char :=
  (grid.getD y []).getD x ' '

/-- The arena coordinate of the raw cell `(x, y)`: half the width and half the height,
by integer division, are subtracted, in the arithmetic of a Go `int`. -/
def centred (w h x y : Nat) : Coordinate :=
  Coordinate.wrapped ((x : Int) - ((w / 2 : Nat) : Int)) ((y : Int) - ((h / 2 : Nat) : Int))

/-- The coordinates of the raw cells whose glyph is of classification `t`, in row-major
order. -/
def cellsOfType (grid : List (List Char)) (w h : Nat) (t : MapType) : List Coordinate :=
  (rawCells w h).filterMap
    (fun c => if isGlyphOf t (glyphAt grid c.1 c.2) then some (centred w h c.1 c.2) else none)

/-! ## Rounds as the specification words them -/

/-- How `startNewRound` leaves one entity: a player is moved to a spawn point, any other
entity is as before. -/
def Respawned (spawnPoints : List Coordinate) (e e1 : Entity) : Prop :=
  match e with
  | .player p => ∃ c ∈ spawnPoints, e1 = .player (p.Move c)
  | .other _ => e1 = e

/-- The players of the table, in enumeration order. -/
def Game.players (game : Game) : List Entity :=
  game.Entities.filter Entity.isPlayer

/-! ## The throttle ledger as the specification words it -/

/-- An event recorded under `actionKey` occurred within `minInterval` before `eventTime`:
the entry of the key is later than `eventTime - minInterval` and not later than
`eventTime`. -/
def Game.recordedWithin (game : Game) (actionKey : String) (eventTime : Time)
    (minInterval : Duration) : Prop :=
  match game.lastAction actionKey with
  | some last => eventTime - minInterval < last ∧ last ≤ eventTime
  | none => False

instance (game : Game) (actionKey : String) (eventTime : Time) (minInterval : Duration) :
    Decidable (game.recordedWithin actionKey eventTime minInterval) := by
  unfold Game.recordedWithin
  cases game.lastAction actionKey <;> infer_instance

/-! ## Concrete states -/

/-- An identifier of sixteen bytes, the last one `n`. -/
def exampleId (n : Fin 256) : UUID :=
  ⟨List.replicate 15 0 ++ [n]⟩

/-- A player at `(x, y)`. -/
def examplePlayer (n : Fin 256) (x y : Int) : Player :=
  { UUID := exampleId n, CurrentPosition := Coordinate.wrapped x y, Name := "Ipad", Icon := 'A' }

/-- The game of `client_local.go`: a new game with one player at `(-1, -5)`. -/
def localGame : Game :=
  NewGame.AddEntity (.player (examplePlayer 1 (-1) (-5)))

/-- The local game with a second player next to the first. -/
def duelGame : Game :=
  localGame.AddEntity (.player (examplePlayer 2 0 (-5)))

/-- An arena of three rows of three cells: walls on the border, a spawn cell in the middle. -/
def arena3 : List (List Char) := [
  ['█', '█', '█'],
  ['█', 'S', '█'],
  ['█', '█', '█']
]

/-- A game on `arena3` with one player on the spawn cell. -/
def arenaGame : Game :=
  { NewGame with gameMap := arena3 }.AddEntity (.player (examplePlayer 1 0 0))

/-- The symbols of `arena3`. -/
def arenaSymbols : Symbols :=
  scanRows 1 1 0 arena3 (fun _ => [])

/-- A game waiting for the next round. -/
def waitingGame : Game :=
  { localGame with WaitForRound := true }

/-- The local game after its player has moved up at time 0. -/
def movedGame : Game :=
  MoveAction.commit ⟨DirectionUp, exampleId 1, 0⟩ localGame (.player (examplePlayer 1 (-1) (-5)))
    { X := -1, Y := -6 }

/-- The local game with the tally of its player at nine. -/
def matchPointGame : Game :=
  { localGame with Score := fun k => if k = exampleId 1 then some 9 else none }

/-- A grid with three spawn cells. -/
def arena5 : List (List Char) := [
  ['█', '█', '█', '█', '█'],
  ['█', 'S', 'S', 'S', '█'],
  ['█', '█', '█', '█', '█']
]

/-- A game on `arena5` with four players and, between them, a laser. -/
def fourPlayerGame : Game :=
  { NewGame with
    gameMap := arena5
    Entities := [.player (examplePlayer 1 7 7), .player (examplePlayer 2 8 8),
      .other { UUID := exampleId 9, position := some { X := 0, Y := 0 }, mover := false },
      .player (examplePlayer 3 9 9), .player (examplePlayer 4 6 6)] }

/-- The symbols of `arena5`. -/
def arena5Symbols : Symbols :=
  scanRows 2 1 0 arena5 (fun _ => [])

/-- The local game with a move of its player recorded at one second. -/
def lateLedgerGame : Game :=
  localGame.updateLastActionTime (MoveAction.actionKey (exampleId 1)) Second

/-- An entity that is no player and implements `Positioner` and `Mover`. -/
def exampleProbe : Entity :=
  .other { UUID := exampleId 9, position := some { X := 0, Y := 0 }, mover := true }

/-- A game on `arena3` with the probe on the middle cell. -/
def probeGame : Game :=
  { NewGame with gameMap := arena3 }.AddEntity exampleProbe

/-- An arena of three rows of five cells: walls on the border, the spawn cell at raw
`(1, 1)` and two free cells to its right. -/
def corridor : List (List Char) := [
  ['█', '█', '█', '█', '█'],
  ['█', 'S', ' ', ' ', '█'],
  ['█', '█', '█', '█', '█']
]

/-- A game on `corridor` with one player on the spawn cell. -/
def corridorGame : Game :=
  { NewGame with gameMap := corridor }.AddEntity (.player (examplePlayer 1 (-1) 0))

/-- The symbols of `corridor`. -/
def corridorSymbols : Symbols :=
  scanRows 2 1 0 corridor (fun _ => [])

/-- The symbols of `MapDefault`. -/
def defaultSymbols : Symbols :=
  scanRows 20 20 0 MapDefault (fun _ => [])

/-- A game on a grid without a spawn cell, with one player. -/
def noSpawnGame : Game :=
  { NewGame with gameMap := [['█', ' ', '█']] }.AddEntity (.player (examplePlayer 1 0 0))

/-! ## Containment in the default arena -/

/-- The entity is at a coordinate that is no wall of `MapDefault` and lies strictly inside
the border: `-19 ≤ X ≤ 18` and `-19 ≤ Y ≤ 18`. -/
def Entity.inArena (e : Entity) : Prop :=
  match e.Position? with
  | some c => c ∉ defaultSymbols MapType.MapTypeWall ∧
      -19 ≤ c.X ∧ c.X ≤ 18 ∧ -19 ≤ c.Y ∧ c.Y ≤ 18
  | none => False

instance (e : Entity) : Decidable e.inArena := by
  unfold Entity.inArena
  cases e.Position? <;> infer_instance

/-- Every player of the table is inside the default arena. -/
def Game.Contained (game : Game) : Prop :=
  ∀ e ∈ game.Entities, e.isPlayer = true → e.inArena

instance (game : Game) : Decidable game.Contained := by
  unfold Game.Contained
  infer_instance

/-- A state-changing operation: a move, or the start of a round. -/
inductive Step where
  | move (action : MoveAction)
  | newRound

/-- The call of `MoveAction.Perform` or of `startNewRound`. -/
def Step.run : Step → Game → Except Panic Game
  | .move action, game => action.Perform game
  | .newRound, game => game.startNewRound

/-- A sequence of state-changing operations, in order. -/
def runSteps : List Step → Game → Except Panic Game
  | [], game => .ok game
  | step :: rest, game =>
    match step.run game with
    | .error p => .error p
    | .ok game1 => runSteps rest game1

/-- The arena of the end-to-end scenario: an open interior of three by three cells, walls on
the border only, the spawn point at the raw cell `(1, 1)`. -/
def openArena : List (List Char) := [
  ['█', '█', '█', '█', '█'],
  ['█', 'S', ' ', ' ', '█'],
  ['█', ' ', ' ', ' ', '█'],
  ['█', ' ', ' ', ' ', '█'],
  ['█', '█', '█', '█', '█']
]

/-- A game on `openArena` to which the player `p` has been added. -/
def openArenaGame (p : Player) : Game :=
  { NewGame with gameMap := openArena }.AddEntity (.player p)

/-- The symbols of `openArena`. -/
def openArenaSymbols : Symbols :=
  scanRows 2 2 0 openArena (fun _ => [])

/-- A game on `corridor` with a player at the largest `X` of a Go `int` and a player at
the smallest. -/
def boundaryGame : Game :=
  { NewGame with
    gameMap := corridor
    Entities := [.player (examplePlayer 1 9223372036854775807 0),
      .player (examplePlayer 2 (-9223372036854775808) 0)] }

/-! ## Lemmas on machine integers -/

theorem wrap64_isInt64 (n : Int) : isInt64 (wrap64 n) := by
  unfold isInt64 wrap64
  omega

/-- Wrapping leaves a value of a Go `int` as it is. -/
theorem wrap64_of_isInt64 {n : Int} (h : isInt64 n) : wrap64 n = n := by
  unfold isInt64 at h
  unfold wrap64
  omega

theorem Coordinate.eq_iff {a b : Coordinate} : a = b ↔ a.X = b.X ∧ a.Y = b.Y := by
  cases a
  cases b
  simp

@[simp]
theorem Coordinate.wrapped_X (x y : Int) : (Coordinate.wrapped x y).X = wrap64 x :=
  rfl

@[simp]
theorem Coordinate.wrapped_Y (x y : Int) : (Coordinate.wrapped x y).Y = wrap64 y :=
  rfl

theorem Coordinate.Add_X (c1 c2 : Coordinate) : (c1.Add c2).X = wrap64 (c1.X + c2.X) :=
  rfl

theorem Coordinate.Add_Y (c1 c2 : Coordinate) : (c1.Add c2).Y = wrap64 (c1.Y + c2.Y) :=
  rfl

/-! ## Lemmas on entities and the table -/

@[simp]
theorem Entity.ID_Move (e : Entity) (c : Coordinate) : (e.Move c).ID = e.ID := by
  cases e <;> rfl

@[simp]
theorem Entity.isPlayer_Move (e : Entity) (c : Coordinate) :
    (e.Move c).isPlayer = e.isPlayer := by
  cases e <;> rfl

@[simp]
theorem Entity.isMover_Move (e : Entity) (c : Coordinate) :
    (e.Move c).isMover = e.isMover := by
  cases e <;> rfl

theorem Entity.Position?_Move {e : Entity} {p : Coordinate} (c : Coordinate)
    (h : e.Position? = some p) : (e.Move c).Position? = some c := by
  cases e with
  | player q => rfl
  | other o =>
    simp only [Entity.Position?] at h
    simp [Entity.Move, Entity.Position?, h]

theorem Entity.Position?_of_isPlayer {e : Entity} (h : e.isPlayer = true) :
    ∃ p, e.Position? = some p := by
  cases e with
  | player q => exact ⟨q.Position, rfl⟩
  | other o => simp [Entity.isPlayer] at h

theorem Game.GetEntity_some {game : Game} {id : UUID} {e : Entity}
    (h : game.GetEntity id = some e) : e ∈ game.Entities ∧ e.ID = id := by
  unfold Game.GetEntity at h
  refine ⟨List.mem_of_find?_eq_some h, ?_⟩
  simpa using List.find?_some h

theorem find?_ID_of_nodup : ∀ (l : List Entity) (e : Entity), (l.map Entity.ID).Nodup → e ∈ l →
    l.find? (fun x => decide (x.ID = e.ID)) = some e := by
  intro l
  induction l with
  | nil => intro e _ h; simp at h
  | cons x xs ih =>
    intro e hnd he
    rw [List.map_cons, List.nodup_cons] at hnd
    rcases List.mem_cons.1 he with rfl | hmem
    · simp [List.find?]
    · have hx : x.ID ≠ e.ID := by
        intro hxe
        exact hnd.1 (hxe ▸ List.mem_map_of_mem Entity.ID hmem)
      simp [List.find?, hx, ih e hnd.2 hmem]

theorem Game.GetEntity_of_mem {game : Game} {e : Entity} (hwf : game.WF)
    (he : e ∈ game.Entities) : game.GetEntity e.ID = some e :=
  find?_ID_of_nodup game.Entities e hwf he

theorem collisionMapLoop_eq : ∀ (es : List Entity) (cm : CollisionMap) (c : Coordinate),
    collisionMapLoop es cm c = cm c ++ es.filter (fun e => decide (e.Position? = some c)) := by
  intro es
  induction es with
  | nil => intro cm c; simp [collisionMapLoop]
  | cons e rest ih =>
    intro cm c
    unfold collisionMapLoop
    cases hp : e.Position? with
    | none => simp [ih, List.filter_cons, hp]
    | some p =>
      simp only [ih]
      by_cases hc : c = p
      · subst hc
        simp [List.filter_cons, hp]
      · have hpc : ¬ p = c := fun h => hc h.symm
        simp [List.filter_cons, hp, hc, hpc]

theorem Game.getCollisionMap_eq (game : Game) (c : Coordinate) :
    game.getCollisionMap c = game.Entities.filter (fun e => decide (e.Position? = some c)) := by
  simp [Game.getCollisionMap, collisionMapLoop_eq]

/-- The player gate of a move passes exactly when no Player of the table is at `c`. -/
theorem Game.collision_free_iff (game : Game) (c : Coordinate) :
    (game.getCollisionMap c).any Entity.isPlayer = false ↔
      ∀ e ∈ game.Entities, e.isPlayer = true → e.Position? ≠ some c := by
  rw [Game.getCollisionMap_eq]
  constructor
  · intro h e he hpl hpos
    have := List.any_eq_false.1 h e (List.mem_filter.2 ⟨he, by simpa using hpos⟩)
    exact this hpl
  · intro h
    apply List.any_eq_false.2
    intro e he
    have hm := List.mem_filter.1 he
    intro hpl
    exact h e hm.1 hpl (by simpa using hm.2)

/-! ## Lemmas on the map index -/

theorem Game.GetMapByType_congr {g1 g2 : Game} (h : g1.gameMap = g2.gameMap) :
    g1.GetMapByType = g2.GetMapByType := by
  simp [Game.GetMapByType, Game.GetMapDimensions, h]

theorem Game.GetMapByType_ok_of_ne_nil {game : Game} (h : game.gameMap ≠ []) :
    ∃ symbols, game.GetMapByType = .ok symbols := by
  unfold Game.GetMapByType Game.GetMapDimensions
  cases hm : game.gameMap with
  | nil => exact absurd hm h
  | cons row rest => exact ⟨_, rfl⟩

theorem Game.GetMapByType_error {game : Game} {p : Panic} (h : game.GetMapByType = .error p) :
    game.gameMap = [] ∧ p = Panic.indexOutOfRange := by
  unfold Game.GetMapByType Game.GetMapDimensions at h
  cases hm : game.gameMap with
  | nil =>
    rw [hm] at h
    simp only [Except.error.injEq] at h
    exact ⟨rfl, h.symm⟩
  | cons row rest =>
    rw [hm] at h
    simp at h

/-! ## The outcomes of a move -/

/-- The position the `switch` of `Perform` computes is the sum, in Go arithmetic, of the
current position and the unit vector of the direction. -/
theorem candidate_eq (d : Direction) (current : Coordinate) :
    (if d = DirectionUp then
        { current with Y := wrap64 (current.Y - 1), okY := (wrapInt (current.Y - 1)).2 }
      else if d = DirectionDown then
        { current with Y := wrap64 (current.Y + 1), okY := (wrapInt (current.Y + 1)).2 }
      else if d = DirectionLeft then
        { current with X := wrap64 (current.X - 1), okX := (wrapInt (current.X - 1)).2 }
      else if d = DirectionRight then
        { current with X := wrap64 (current.X + 1), okX := (wrapInt (current.X + 1)).2 }
      else current : Coordinate) = current.Add (displacement d) := by
  have hx := wrap64_of_isInt64 current.okX
  have hy := wrap64_of_isInt64 current.okY
  unfold displacement
  split_ifs <;> rw [Coordinate.eq_iff, Coordinate.Add_X, Coordinate.Add_Y] <;>
    simp [hx, hy, sub_eq_add_neg]

/-- A move that passes every gate is applied. -/
theorem MoveAction.Perform_of_admitted {action : MoveAction} {game : Game} {entity : Entity}
    {current : Coordinate} {symbols : Symbols} (h : action.Admitted game entity current symbols) :
    action.Perform game =
      .ok (action.commit game entity (current.Add (displacement action.Direction))) := by
  have hw : (symbols MapType.MapTypeWall).any
      (fun wall => decide (current.Add (displacement action.Direction) = wall)) = false := by
    apply List.any_eq_false.2
    intro w hwm
    simp only [decide_eq_true_eq]
    intro he
    exact h.noWall (he ▸ hwm)
  unfold MoveAction.Perform
  simp only [h.found, h.mover, h.positioner, h.allowed, h.map, candidate_eq, hw, h.noPlayer]
  simp [MoveAction.commit]

/-- A move is dropped with the state as it was, or panics on an empty grid, or passes every
gate and is applied. -/
theorem MoveAction.Perform_outcome (action : MoveAction) (game : Game) :
    action.Perform game = .ok game ∨
    (action.Perform game = .error Panic.indexOutOfRange ∧ game.gameMap = [] ∧
      ∃ entity, game.GetEntity action.ID = some entity ∧
        game.checkLastActionTime (MoveAction.actionKey entity.ID) action.Created
          moveThrottle = true) ∨
    ∃ entity current symbols, action.Admitted game entity current symbols ∧
      action.Perform game =
        .ok (action.commit game entity (current.Add (displacement action.Direction))) := by
  cases hE : game.GetEntity action.ID with
  | none => left; simp [MoveAction.Perform, hE]
  | some entity =>
    cases hM : entity.isMover with
    | false => left; simp [MoveAction.Perform, hE, hM]
    | true =>
      cases hP : entity.Position? with
      | none => left; simp [MoveAction.Perform, hE, hM, hP]
      | some current =>
        cases hT : game.checkLastActionTime (MoveAction.actionKey entity.ID) action.Created
            moveThrottle with
        | false => left; simp [MoveAction.Perform, hE, hM, hP, hT]
        | true =>
          cases hG : game.GetMapByType with
          | error p =>
            right; left
            obtain ⟨hnil, hp⟩ := Game.GetMapByType_error hG
            subst hp
            exact ⟨by simp [MoveAction.Perform, hE, hM, hP, hT, hG], hnil, entity, rfl, hT⟩
          | ok symbols =>
            by_cases hW : current.Add (displacement action.Direction) ∈
                symbols MapType.MapTypeWall
            · left
              have hw : (symbols MapType.MapTypeWall).any
                  (fun wall => decide (current.Add (displacement action.Direction) = wall))
                    = true := by
                apply List.any_eq_true.2
                exact ⟨_, hW, by simp⟩
              unfold MoveAction.Perform
              simp only [hE, hM, hP, hT, hG, candidate_eq, hw]
              simp
            · cases hC : (game.getCollisionMap
                  (current.Add (displacement action.Direction))).any Entity.isPlayer with
              | true =>
                left
                have hw : (symbols MapType.MapTypeWall).any
                    (fun wall => decide (current.Add (displacement action.Direction) = wall))
                      = false := by
                  apply List.any_eq_false.2
                  intro w hwm
                  simp only [decide_eq_true_eq]
                  intro he
                  exact hW (he ▸ hwm)
                unfold MoveAction.Perform
                simp only [hE, hM, hP, hT, hG, candidate_eq, hw, hC]
                simp
              | false =>
                right; right
                have hadm : action.Admitted game entity current symbols :=
                  ⟨hE, hM, hP, hT, hG, hW, hC⟩
                exact ⟨entity, current, symbols, hadm, MoveAction.Perform_of_admitted hadm⟩

@[simp]
theorem Game.sendChange_Entities (game : Game) (c : Change) :
    (game.sendChange c).Entities = game.Entities := by
  unfold Game.sendChange
  cases game.ChangeChannel <;> rfl

@[simp]
theorem Game.sendChange_gameMap (game : Game) (c : Change) :
    (game.sendChange c).gameMap = game.gameMap := by
  unfold Game.sendChange
  cases game.ChangeChannel <;> rfl

@[simp]
theorem Game.sendChange_lastAction (game : Game) (c : Change) :
    (game.sendChange c).lastAction = game.lastAction := by
  unfold Game.sendChange
  cases game.ChangeChannel <;> rfl

@[simp]
theorem Game.sendChange_WaitForRound (game : Game) (c : Change) :
    (game.sendChange c).WaitForRound = game.WaitForRound := by
  unfold Game.sendChange
  cases game.ChangeChannel <;> rfl

@[simp]
theorem Game.sendChange_Score (game : Game) (c : Change) :
    (game.sendChange c).Score = game.Score := by
  unfold Game.sendChange
  cases game.ChangeChannel <;> rfl

theorem Game.sendChange_ChangeChannel (game : Game) (c : Change) :
    (game.sendChange c).ChangeChannel = some (game.ChangeChannel.getD c) := by
  unfold Game.sendChange
  cases h : game.ChangeChannel <;> simp [h]

theorem MoveAction.commit_Entities (action : MoveAction) (game : Game) (entity : Entity)
    (position : Coordinate) :
    (action.commit game entity position).Entities =
      game.Entities.map (fun e => if e.ID = action.ID then e.Move position else e) := by
  simp [MoveAction.commit, Game.updateLastActionTime, Game.moveEntity]

theorem MoveAction.commit_gameMap (action : MoveAction) (game : Game) (entity : Entity)
    (position : Coordinate) : (action.commit game entity position).gameMap = game.gameMap := by
  simp [MoveAction.commit, Game.updateLastActionTime, Game.moveEntity]

theorem MoveAction.commit_WaitForRound (action : MoveAction) (game : Game) (entity : Entity)
    (position : Coordinate) :
    (action.commit game entity position).WaitForRound = game.WaitForRound := by
  simp [MoveAction.commit, Game.updateLastActionTime, Game.moveEntity]

theorem MoveAction.commit_lastAction (action : MoveAction) (game : Game) (entity : Entity)
    (position : Coordinate) (k : String) :
    (action.commit game entity position).lastAction k =
      if k = MoveAction.actionKey entity.ID then some action.Created else game.lastAction k := by
  simp [MoveAction.commit, Game.updateLastActionTime, Game.moveEntity]

theorem MoveAction.Perform_gameMap {action : MoveAction} {game game1 : Game}
    (h : action.Perform game = .ok game1) : game1.gameMap = game.gameMap := by
  rcases MoveAction.Perform_outcome action game with h0 | ⟨h0, _⟩ | ⟨e, c, sp, _, h0⟩
  · rw [h0] at h
    cases h
    rfl
  · rw [h0] at h
    cases h
  · rw [h0] at h
    cases h
    exact MoveAction.commit_gameMap _ _ _ _

theorem MoveAction.Perform_total (action : MoveAction) {game : Game} (hmap : game.gameMap ≠ []) :
    ∃ game1, action.Perform game = .ok game1 := by
  rcases MoveAction.Perform_outcome action game with h0 | ⟨_, h0, _⟩ | ⟨e, c, sp, _, h0⟩
  · exact ⟨_, h0⟩
  · exact absurd h0 hmap
  · exact ⟨_, h0⟩

theorem performAll_total : ∀ (actions : List MoveAction) (game : Game), game.gameMap ≠ [] →
    ∃ game1, performAll actions game = .ok game1 := by
  intro actions
  induction actions with
  | nil => intro game _; exact ⟨game, rfl⟩
  | cons a rest ih =>
    intro game hmap
    obtain ⟨g1, h1⟩ := MoveAction.Perform_total a hmap
    have hmap1 : g1.gameMap ≠ [] := by
      rw [MoveAction.Perform_gameMap h1]
      exact hmap
    obtain ⟨g2, h2⟩ := ih g1 hmap1
    exact ⟨g2, by simp [performAll, h1, h2]⟩

/-- An applied move keeps the players apart. -/
theorem MoveAction.commit_NoOverlap {action : MoveAction} {game : Game} {entity : Entity}
    {current : Coordinate} {symbols : Symbols} (hadm : action.Admitted game entity current symbols)
    (h : game.NoOverlap) :
    (action.commit game entity (current.Add (displacement action.Direction))).NoOverlap := by
  have hfree := (Game.collision_free_iff game _).1 hadm.noPlayer
  intro e1 h1 e2 h2 hp1 hp2 hne
  rw [MoveAction.commit_Entities] at h1 h2
  obtain ⟨x1, hx1, rfl⟩ := List.mem_map.1 h1
  obtain ⟨x2, hx2, rfl⟩ := List.mem_map.1 h2
  by_cases c1 : x1.ID = action.ID <;> by_cases c2 : x2.ID = action.ID
  · simp [c1, c2] at hne
  · simp only [c1, c2, if_true, if_false, Entity.isPlayer_Move] at hp1 hp2 ⊢
    obtain ⟨p, hp⟩ := Entity.Position?_of_isPlayer hp1
    rw [Entity.Position?_Move _ hp]
    exact fun heq => hfree x2 hx2 hp2 heq.symm
  · simp only [c1, c2, if_true, if_false, Entity.isPlayer_Move] at hp1 hp2 ⊢
    obtain ⟨p, hp⟩ := Entity.Position?_of_isPlayer hp2
    rw [Entity.Position?_Move _ hp]
    exact hfree x1 hx1 hp1
  · simp only [c1, c2, if_false] at hp1 hp2 hne ⊢
    exact h x1 hx1 x2 hx2 hp1 hp2 hne

theorem MoveAction.Perform_NoOverlap {action : MoveAction} {game game1 : Game}
    (hp : action.Perform game = .ok game1) (h : game.NoOverlap) : game1.NoOverlap := by
  rcases MoveAction.Perform_outcome action game with h0 | ⟨h0, _⟩ | ⟨e, c, sp, hadm, h0⟩
  · rw [h0] at hp
    cases hp
    exact h
  · rw [h0] at hp
    cases hp
  · rw [h0] at hp
    cases hp
    exact MoveAction.commit_NoOverlap hadm h

theorem performAll_NoOverlap : ∀ (actions : List MoveAction) (game game1 : Game),
    performAll actions game = .ok game1 → game.NoOverlap → game1.NoOverlap := by
  intro actions
  induction actions with
  | nil =>
    intro game game1 h hno
    simp only [performAll, Except.ok.injEq] at h
    exact h ▸ hno
  | cons a rest ih =>
    intro game game1 h hno
    unfold performAll at h
    cases ha : a.Perform game with
    | error p => simp [ha] at h
    | ok g1 =>
      simp only [ha] at h
      exact ih g1 game1 h (MoveAction.Perform_NoOverlap ha hno)

/-! ## The throttle ledger along a run -/

theorem moveThrottle_pos : (0 : Int) < moveThrottle := by
  decide

theorem wrap64_neg_moveThrottle : wrap64 ((-1) * moveThrottle) = -moveThrottle := by
  decide

theorem Game.checkLastActionTime_wrap_eq_true {game : Game} {k : String} {created : Time}
    {throttle : Duration} :
    game.checkLastActionTime k created throttle = true ↔
      ∀ last, game.lastAction k = some last → last ≤ created + wrap64 ((-1) * throttle) := by
  unfold Game.checkLastActionTime
  cases h : game.lastAction k with
  | none => simp
  | some last =>
    by_cases hlt : last > created + wrap64 ((-1) * throttle)
    · simp only [hlt, if_true, Option.some.injEq, forall_eq']
      constructor
      · intro hf; cases hf
      · intro hle; linarith
    · simp only [hlt, if_false, Option.some.injEq, forall_eq', true_iff]
      linarith

theorem Game.checkLastActionTime_eq_true {game : Game} {k : String} {created : Time} :
    game.checkLastActionTime k created moveThrottle = true ↔
      ∀ last, game.lastAction k = some last → last ≤ created - moveThrottle := by
  rw [Game.checkLastActionTime_wrap_eq_true, wrap64_neg_moveThrottle]
  constructor
  · intro h last hl
    have := h last hl
    linarith
  · intro h last hl
    have := h last hl
    linarith

/-- A move never lowers a ledger entry: an entry at or after `t` stays at or after `t`. -/
theorem MoveAction.Perform_ledger_mono {action : MoveAction} {game game1 : Game} {k : String}
    {t : Time} (hp : action.Perform game = .ok game1)
    (h : ∃ last, game.lastAction k = some last ∧ t ≤ last) :
    ∃ last, game1.lastAction k = some last ∧ t ≤ last := by
  rcases MoveAction.Perform_outcome action game with h0 | ⟨h0, _⟩ | ⟨e, c, sp, hadm, h0⟩
  · rw [h0] at hp
    cases hp
    exact h
  · rw [h0] at hp
    cases hp
  · rw [h0] at hp
    cases hp
    rw [MoveAction.commit_lastAction]
    by_cases hk : k = MoveAction.actionKey e.ID
    · obtain ⟨last, hl, hle⟩ := h
      have hall := Game.checkLastActionTime_eq_true.1 hadm.allowed last (hk ▸ hl)
      have hpos := moveThrottle_pos
      exact ⟨action.Created, by simp [hk], by linarith⟩
    · simpa [hk] using h

theorem Game.watchActions_ledger_mono {action : MoveAction} {game game1 : Game} {k : String}
    {t : Time} (hp : game.watchActions action.toAction = .ok game1)
    (h : ∃ last, game.lastAction k = some last ∧ t ≤ last) :
    ∃ last, game1.lastAction k = some last ∧ t ≤ last := by
  unfold Game.watchActions at hp
  by_cases hw : game.WaitForRound = true
  · simp only [hw, if_true, Except.ok.injEq] at hp
    exact hp ▸ h
  · simp only [hw] at hp
    exact MoveAction.Perform_ledger_mono hp h

theorem watchMoves_ledger_mono : ∀ (actions : List MoveAction) (game game1 : Game) (k : String)
    (t : Time), watchMoves actions game = .ok game1 →
    (∃ last, game.lastAction k = some last ∧ t ≤ last) →
    ∃ last, game1.lastAction k = some last ∧ t ≤ last := by
  intro actions
  induction actions with
  | nil =>
    intro game game1 k t hp h
    simp only [watchMoves, Except.ok.injEq] at hp
    exact hp ▸ h
  | cons a rest ih =>
    intro game game1 k t hp h
    unfold watchMoves at hp
    cases ha : game.watchActions a.toAction with
    | error p => simp [ha] at hp
    | ok g1 =>
      simp only [ha] at hp
      exact ih g1 game1 k t hp (Game.watchActions_ledger_mono ha h)

/-- A move whose key has a ledger entry later than `Created - moveThrottle` is dropped. -/
theorem MoveAction.Perform_throttled {action : MoveAction} {game : Game} {last : Time}
    (hl : game.lastAction (MoveAction.actionKey action.ID) = some last)
    (hlt : action.Created - moveThrottle < last) : action.Perform game = .ok game := by
  rcases MoveAction.Perform_outcome action game with h0 | ⟨_, _, e, he, hall⟩ |
    ⟨e, c, sp, hadm, _⟩
  · exact h0
  · rw [(Game.GetEntity_some he).2] at hall
    have := Game.checkLastActionTime_eq_true.1 hall last hl
    linarith
  · have hall := hadm.allowed
    rw [(Game.GetEntity_some hadm.found).2] at hall
    have := Game.checkLastActionTime_eq_true.1 hall last hl
    linarith

/-! ## The map index, cell by cell -/

theorem scanRow_eq (cx cy y : Nat) (t : MapType) : ∀ (row : List Char) (x : Nat) (s : Symbols),
    scanRow cx cy y x row s t = s t ++ (row.enumFrom x).filterMap (cellOfType cx cy y t) := by
  intro row
  induction row with
  | nil => intro x s; simp [scanRow]
  | cons col rest ih =>
    intro x s
    rw [scanRow, ih, List.enumFrom_cons, List.filterMap_cons]
    by_cases hc : classify col = t
    · have ht : t = classify col := hc.symm
      simp [Symbols.append, cellOfType, hc]
    · have ht : ¬ t = classify col := fun h => hc h.symm
      simp [Symbols.append, cellOfType, hc, ht]

theorem scanRows_eq (cx cy : Nat) (t : MapType) : ∀ (rows : List (List Char)) (y : Nat)
    (s : Symbols), scanRows cx cy y rows s t =
      s t ++ (rows.enumFrom y).flatMap
        (fun q => (q.2.enumFrom 0).filterMap (cellOfType cx cy q.1 t)) := by
  intro rows
  induction rows with
  | nil => intro y s; simp [scanRows]
  | cons row rest ih =>
    intro y s
    rw [scanRows, ih, scanRow_eq, List.enumFrom_cons, List.flatMap_cons, List.append_assoc]


theorem enumFrom_zero_eq_map_range {α : Type} (l : List α) (d : α) :
    l.enumFrom 0 = (List.range l.length).map (fun i => (i, l.getD i d)) := by
  apply List.ext_getElem
  · simp
  · intro i h1 h2
    simp at h1
    simp [List.getD_eq_getElem, h1]

theorem flatMap_congr_mem {α β : Type} {f g : α → List β} : ∀ (l : List α),
    (∀ a ∈ l, f a = g a) → l.flatMap f = l.flatMap g := by
  intro l
  induction l with
  | nil => intro _; rfl
  | cons a as ih =>
    intro h
    rw [List.flatMap_cons, List.flatMap_cons, h a (List.mem_cons_self _ _),
      ih (fun b hb => h b (List.mem_cons_of_mem _ hb))]

theorem filterMap_flatMap_eq {α β γ : Type} (f : α → List β) (g : β → Option γ) :
    ∀ (l : List α), (l.flatMap f).filterMap g = l.flatMap (fun a => (f a).filterMap g) := by
  intro l
  induction l with
  | nil => rfl
  | cons a as ih => rw [List.flatMap_cons, List.flatMap_cons, List.filterMap_append, ih]

theorem flatMap_map_eq {α β γ : Type} (f : α → β) (g : β → List γ) :
    ∀ (l : List α), (l.map f).flatMap g = l.flatMap (fun a => g (f a)) := by
  intro l
  induction l with
  | nil => rfl
  | cons a as ih => rw [List.map_cons, List.flatMap_cons, List.flatMap_cons, ih]

/-- The `switch` of `GetMapByType` classifies a glyph as the specification says. -/
theorem classify_eq_iff (glyph : Char) (t : MapType) :
    classify glyph = t ↔ isGlyphOf t glyph := by
  unfold classify isGlyphOf
  cases t <;> split_ifs <;> simp_all

theorem scanRows_rectangular (grid : List (List Char)) (w : Nat) (t : MapType)
    (hw : ∀ row ∈ grid, row.length = w) :
    scanRows (w / 2) (grid.length / 2) 0 grid (fun _ => []) t
      = cellsOfType grid w grid.length t := by
  rw [scanRows_eq, List.nil_append, enumFrom_zero_eq_map_range grid [], flatMap_map_eq]
  unfold cellsOfType rawCells
  rw [filterMap_flatMap_eq]
  apply flatMap_congr_mem
  intro y hy
  have hy1 : y < grid.length := List.mem_range.1 hy
  have hrow : (grid.getD y []).length = w := by
    rw [List.getD_eq_getElem grid [] hy1]
    exact hw _ (List.getElem_mem _)
  simp only []
  rw [enumFrom_zero_eq_map_range (grid.getD y []) ' ', hrow, List.filterMap_map,
    List.filterMap_map]
  congr 1
  funext x
  simp only [Function.comp, cellOfType, glyphAt, centred, classify_eq_iff]

/-! ## Rounds -/

theorem spawn_mem_of_glyph {game : Game} {symbols : Symbols}
    (hmap : game.GetMapByType = .ok symbols) (h : ∃ row ∈ game.gameMap, 'S' ∈ row) :
    symbols MapType.MapTypeSpawn ≠ [] := by
  obtain ⟨row, hrow, hS⟩ := h
  unfold Game.GetMapByType Game.GetMapDimensions at hmap
  cases hg : game.gameMap with
  | nil => rw [hg] at hrow; cases hrow
  | cons r0 rest =>
    rw [hg] at hmap hrow
    simp only [Except.ok.injEq] at hmap
    rw [← hmap, scanRows_eq, List.nil_append]
    obtain ⟨y, hy, hyr⟩ := List.getElem_of_mem hrow
    obtain ⟨x, hx, hxc⟩ := List.getElem_of_mem hS
    intro hnil
    have hmem : Coordinate.wrapped ((x : Int) - ((r0.length / 2 : Nat) : Int))
        ((y : Int) - (((r0 :: rest).length / 2 : Nat) : Int)) ∈
        ((r0 :: rest).enumFrom 0).flatMap
          (fun q => (q.2.enumFrom 0).filterMap
            (cellOfType (r0.length / 2) ((r0 :: rest).length / 2) q.1 MapType.MapTypeSpawn)) := by
      rw [List.mem_flatMap]
      refine ⟨(y, row), ?_, ?_⟩
      · rw [List.mk_mem_enumFrom_iff_le_and_getElem?_sub]
        exact ⟨Nat.zero_le _, by simp [List.getElem?_eq_getElem hy, hyr]⟩
      · rw [List.mem_filterMap]
        refine ⟨(x, 'S'), ?_, ?_⟩
        · rw [List.mk_mem_enumFrom_iff_le_and_getElem?_sub]
          exact ⟨Nat.zero_le _, by simp [List.getElem?_eq_getElem hx, hxc]⟩
        · simp [cellOfType, classify]
    rw [hnil] at hmem
    cases hmem

theorem respawnLoop_spec (sp : List Coordinate) (hsp : sp ≠ []) : ∀ (es : List Entity) (i : Nat),
    ∃ es1, respawnLoop sp es i = .ok es1 ∧ List.Forall₂ (Respawned sp) es es1 ∧
      (es1.filter Entity.isPlayer).length = (es.filter Entity.isPlayer).length ∧
      ∀ k e, (es.filter Entity.isPlayer)[k]? = some e →
        ∃ c, sp[(i + k) % sp.length]? = some c ∧
          (es1.filter Entity.isPlayer)[k]? = some (e.Move c) := by
  have hlen : 0 < sp.length := List.length_pos.2 hsp
  intro es
  induction es with
  | nil => intro i; exact ⟨[], rfl, List.Forall₂.nil, rfl, by simp⟩
  | cons e rest ih =>
    intro i
    cases e with
    | player p =>
      obtain ⟨rest1, hr, hf, hl, hk⟩ := ih (i + 1)
      have hi : i % sp.length < sp.length := Nat.mod_lt _ hlen
      have hget : sp[i % sp.length]? = some (sp[i % sp.length]) :=
        List.getElem?_eq_getElem hi
      refine ⟨.player (p.Move (sp[i % sp.length])) :: rest1, ?_, ?_, ?_, ?_⟩
      · rw [respawnLoop]
        simp only [Nat.ne_of_gt hlen, if_false, hget, hr]
      · exact List.Forall₂.cons ⟨_, List.getElem_mem _, rfl⟩ hf
      · simp [List.filter_cons, Entity.isPlayer, hl]
      · intro k e he
        cases k with
        | zero =>
          simp only [List.filter_cons, Entity.isPlayer, if_true, List.getElem?_cons_zero,
            Option.some.injEq] at he
          subst he
          refine ⟨_, hget, ?_⟩
          simp [List.filter_cons, Entity.isPlayer, Entity.Move]
        | succ k =>
          simp only [List.filter_cons, Entity.isPlayer, if_true, List.getElem?_cons_succ] at he
          obtain ⟨c, hc, hm⟩ := hk k e he
          refine ⟨c, ?_, ?_⟩
          · rw [← hc]
            congr 2
            omega
          · simpa [List.filter_cons, Entity.isPlayer] using hm
    | other o =>
      obtain ⟨rest1, hr, hf, hl, hk⟩ := ih i
      refine ⟨.other o :: rest1, ?_, ?_, ?_, ?_⟩
      · rw [respawnLoop]
        simp only [hr]
      · exact List.Forall₂.cons rfl hf
      · simpa [List.filter_cons, Entity.isPlayer] using hl
      · intro k e he
        simp only [List.filter_cons, Entity.isPlayer] at he
        obtain ⟨c, hc, hm⟩ := hk k e (by simpa using he)
        exact ⟨c, hc, by simpa [List.filter_cons, Entity.isPlayer] using hm⟩

/-- What `startNewRound` returns on a grid with a spawn point. -/
theorem Game.startNewRound_eq {game : Game} {symbols : Symbols}
    (hmap : game.GetMapByType = .ok symbols) (hsp : symbols MapType.MapTypeSpawn ≠ []) :
    ∃ es1, respawnLoop (symbols MapType.MapTypeSpawn) game.Entities 0 = .ok es1 ∧
      game.startNewRound = .ok ({ game with
        WaitForRound := false, Score := fun _ => none, Entities := es1 }.sendChange
          Change.RoundStartChange) := by
  obtain ⟨es1, hr, _⟩ := respawnLoop_spec _ hsp game.Entities 0
  refine ⟨es1, hr, ?_⟩
  have hmap1 : Game.GetMapByType { game with WaitForRound := false, Score := fun _ => none }
      = .ok symbols := by
    rw [← hmap]
    exact Game.GetMapByType_congr rfl
  unfold Game.startNewRound
  simp only [hmap1, hr]

theorem respawned_player_at_spawn {sp : List Coordinate} {es es1 : List Entity}
    (h : List.Forall₂ (Respawned sp) es es1) :
    ∀ e1 ∈ es1, e1.isPlayer = true → ∃ c ∈ sp, e1.Position? = some c := by
  induction h with
  | nil => intro e1 he; cases he
  | @cons a b _ _ hr _ ih =>
    intro e1 he hp
    rcases List.mem_cons.1 he with rfl | hmem
    · cases a with
      | player p =>
        obtain ⟨c, hc, hb⟩ := hr
        exact ⟨c, hc, by rw [hb]; rfl⟩
      | other o =>
        have hb : e1 = Entity.other o := hr
        rw [hb] at hp
        cases hp
    · exact ih e1 hmem hp

/-- The raw cells are listed row by row and, in a row, column by column; they are the cells
`(x, y)` with `x < w` and `y < h`. -/
theorem rawCells_rowMajor (w h : Nat) :
    (rawCells w h).Pairwise (fun a b => a.2 < b.2 ∨ (a.2 = b.2 ∧ a.1 < b.1)) ∧
    ∀ x y, (x, y) ∈ rawCells w h ↔ x < w ∧ y < h := by
  constructor
  · unfold rawCells
    rw [List.pairwise_flatMap]
    constructor
    · intro y _
      rw [List.pairwise_map]
      exact (List.pairwise_lt_range w).imp (fun hlt => Or.inr ⟨rfl, hlt⟩)
    · refine (List.pairwise_lt_range h).imp ?_
      intro y1 y2 hlt a ha b hb
      obtain ⟨x1, _, rfl⟩ := List.mem_map.1 ha
      obtain ⟨x2, _, rfl⟩ := List.mem_map.1 hb
      exact Or.inl hlt
  · intro x y
    simp only [rawCells, List.mem_flatMap, List.mem_map, List.mem_range, Prod.mk.injEq]
    constructor
    · rintro ⟨b, hb, a, ha, rfl, rfl⟩
      exact ⟨ha, hb⟩
    · rintro ⟨hx, hy⟩
      exact ⟨y, hy, x, hx, rfl, rfl⟩

theorem Entity.Move_self {e : Entity} {current : Coordinate}
    (h : e.Position? = some current) : e.Move current = e := by
  cases e with
  | player p =>
    simp only [Entity.Position?, Player.Position, Option.some.injEq] at h
    simp [Entity.Move, Player.Move, ← h]
  | other o =>
    simp only [Entity.Position?] at h
    cases o with
    | mk id pos mv =>
      simp only at h
      simp [Entity.Move, h]

theorem map_ID_nodup_inj {l : List Entity} (hnd : (l.map Entity.ID).Nodup) {a b : Entity}
    (ha : a ∈ l) (hb : b ∈ l) (hid : a.ID = b.ID) : a = b := by
  have h1 := find?_ID_of_nodup l a hnd ha
  have h2 := find?_ID_of_nodup l b hnd hb
  rw [hid, h2] at h1
  exact (Option.some.inj h1).symm

/-! ## Throttle keys -/

theorem hexDigit_inj : ∀ a b : Fin 16, hexDigit a.val = hexDigit b.val → a = b := by
  decide

theorem hexByte_inj {b1 b2 : Fin 256} (h : hexByte b1 = hexByte b2) : b1 = b2 := by
  simp only [hexByte, List.cons.injEq, and_true] at h
  have h1 := hexDigit_inj ⟨b1.val / 16, by omega⟩ ⟨b2.val / 16, by omega⟩ h.1
  have h2 := hexDigit_inj ⟨b1.val % 16, by omega⟩ ⟨b2.val % 16, by omega⟩ h.2
  simp only [Fin.mk.injEq] at h1 h2
  apply Fin.ext
  omega

theorem encodeHex_inj : ∀ (bs1 bs2 : List (Fin 256)) (i : Nat),
    encodeHex i bs1 = encodeHex i bs2 → bs1 = bs2 := by
  intro bs1
  induction bs1 with
  | nil =>
    intro bs2 i h
    cases bs2 with
    | nil => rfl
    | cons b bs =>
      have hl := congrArg List.length h
      simp only [encodeHex, hexByte, List.length_append, List.length_cons, List.length_nil] at hl
      omega
  | cons b1 rest1 ih =>
    intro bs2 i h
    cases bs2 with
    | nil =>
      have hl := congrArg List.length h
      simp only [encodeHex, hexByte, List.length_append, List.length_cons, List.length_nil] at hl
      omega
    | cons b2 rest2 =>
      simp only [encodeHex, List.append_assoc] at h
      have h1 := List.append_cancel_left h
      have hb : hexByte b1 = hexByte b2 := by
        simp only [hexByte, List.cons_append, List.nil_append, List.cons.injEq] at h1 ⊢
        exact ⟨h1.1, h1.2.1, trivial⟩
      have hr : encodeHex (i + 1) rest1 = encodeHex (i + 1) rest2 := by
        simp only [hexByte, List.cons_append, List.nil_append, List.cons.injEq] at h1
        exact h1.2.2
      rw [hexByte_inj hb, ih rest2 (i + 1) hr]

/-- Distinct identifiers have distinct throttle keys. -/
theorem MoveAction.actionKey_inj {id1 id2 : UUID}
    (h : MoveAction.actionKey id1 = MoveAction.actionKey id2) : id1 = id2 := by
  unfold MoveAction.actionKey UUID.String at h
  have hd := congrArg String.data h
  simp only [String.data_append] at hd
  have := encodeHex_inj _ _ 0 (List.append_cancel_left hd)
  cases id1; cases id2
  simpa using this

/-! ## Lookups after a write -/

theorem find?_map_same (id : UUID) (f : Entity → Entity)
    (hf : ∀ x, x.ID = id → (f x).ID = id) :
    ∀ (l : List Entity) (e : Entity), l.find? (fun x => decide (x.ID = id)) = some e →
      (l.map (fun x => if x.ID = id then f x else x)).find? (fun x => decide (x.ID = id))
        = some (f e) := by
  intro l
  induction l with
  | nil => intro e h; simp at h
  | cons x xs ih =>
    intro e h
    by_cases hx : x.ID = id
    · have h1 : decide ((f x).ID = id) = true := by simp [hf x hx]
      have h2 : decide (x.ID = id) = true := by simp [hx]
      rw [List.find?_cons, h2] at h
      rw [List.map_cons, if_pos hx, List.find?_cons, h1]
      exact congrArg (fun o => o.map f) h
    · have h2 : decide (x.ID = id) = false := by simp [hx]
      rw [List.find?_cons, h2] at h
      rw [List.map_cons, if_neg hx, List.find?_cons, h2]
      exact ih e h

theorem find?_map_other (id id1 : UUID) (hne : id1 ≠ id) (f : Entity → Entity)
    (hf : ∀ x, x.ID = id → (f x).ID = id) : ∀ (l : List Entity),
      (l.map (fun x => if x.ID = id then f x else x)).find? (fun x => decide (x.ID = id1))
        = l.find? (fun x => decide (x.ID = id1)) := by
  intro l
  induction l with
  | nil => rfl
  | cons x xs ih =>
    by_cases hx : x.ID = id
    · have hx1 : ¬ x.ID = id1 := fun h => hne (h.symm.trans hx)
      have hx2 : ¬ (f x).ID = id1 := fun h => hne (h.symm.trans (hf x hx))
      have h1 : decide ((f x).ID = id1) = false := by simp [hx2]
      have h2 : decide (x.ID = id1) = false := by simp [hx1]
      rw [List.map_cons, if_pos hx, List.find?_cons, List.find?_cons, h1, h2]
      exact ih
    · rw [List.map_cons, if_neg hx, List.find?_cons, List.find?_cons, ih]

theorem find?_filter_other (id id1 : UUID) (hne : id1 ≠ id) : ∀ (l : List Entity),
    (l.filter (fun x => decide (x.ID ≠ id))).find? (fun x => decide (x.ID = id1))
      = l.find? (fun x => decide (x.ID = id1)) := by
  intro l
  induction l with
  | nil => rfl
  | cons x xs ih =>
    by_cases hx : x.ID = id
    · have hx1 : ¬ x.ID = id1 := fun h => hne (h.symm.trans hx)
      have h2 : decide (x.ID = id1) = false := by simp [hx1]
      have h3 : decide (x.ID ≠ id) = false := by simp [hx]
      rw [List.filter_cons, h3, List.find?_cons, h2]
      exact ih
    · have h3 : decide (x.ID ≠ id) = true := by simp [hx]
      rw [List.filter_cons, h3, if_pos rfl, List.find?_cons, List.find?_cons, ih]

theorem MoveAction.commit_GetEntity {action : MoveAction} {game : Game} {entity : Entity}
    (position : Coordinate) (h : game.GetEntity action.ID = some entity) :
    (action.commit game entity position).GetEntity action.ID = some (entity.Move position) := by
  unfold Game.GetEntity at h ⊢
  rw [MoveAction.commit_Entities]
  exact find?_map_same action.ID (fun x => x.Move position)
    (fun x hx => (Entity.ID_Move x position).trans hx) game.Entities entity h

theorem MoveAction.commit_GetEntity_other {action : MoveAction} {game : Game} (entity : Entity)
    (position : Coordinate) {id : UUID} (hne : id ≠ action.ID) :
    (action.commit game entity position).GetEntity id = game.GetEntity id := by
  unfold Game.GetEntity
  rw [MoveAction.commit_Entities]
  exact find?_map_other action.ID id hne (fun x => x.Move position)
    (fun x hx => (Entity.ID_Move x position).trans hx) game.Entities

theorem MoveAction.commit_ChangeChannel (action : MoveAction) (game : Game) (entity : Entity)
    (position : Coordinate) :
    (action.commit game entity position).ChangeChannel =
      some (game.ChangeChannel.getD
        (Change.MoveChange (entity.Move position) action.Direction position)) := by
  unfold MoveAction.commit Game.updateLastActionTime
  simp only []
  rw [Game.sendChange_ChangeChannel]
  rfl

/-- An applied move is not the identity: it writes a ledger entry that was not there. -/
theorem MoveAction.commit_ne {action : MoveAction} {game : Game} {entity : Entity}
    {current : Coordinate} {symbols : Symbols}
    (hadm : action.Admitted game entity current symbols) (position : Coordinate) :
    action.commit game entity position ≠ game := by
  intro heq
  have h1 := MoveAction.commit_lastAction action game entity position
    (MoveAction.actionKey entity.ID)
  rw [heq] at h1
  simp only [if_true] at h1
  have h2 := Game.checkLastActionTime_eq_true.1 hadm.allowed action.Created h1
  have := moveThrottle_pos
  linarith

/-- On a grid that is not empty a move passes every gate and is applied, or fails a gate and
returns the state it was given. -/
theorem MoveAction.Perform_dichotomy (action : MoveAction) {game : Game} {symbols : Symbols}
    (hmap : game.GetMapByType = .ok symbols) :
    (∃ entity current, action.Admitted game entity current symbols ∧
      action.Perform game =
        .ok (action.commit game entity (current.Add (displacement action.Direction)))) ∨
    ((¬ ∃ entity current, action.Admitted game entity current symbols) ∧
      action.Perform game = .ok game) := by
  by_cases hex : ∃ entity current, action.Admitted game entity current symbols
  · obtain ⟨entity, current, hadm⟩ := hex
    exact Or.inl ⟨entity, current, hadm, MoveAction.Perform_of_admitted hadm⟩
  · refine Or.inr ⟨hex, ?_⟩
    rcases MoveAction.Perform_outcome action game with h0 | ⟨_, hnil, _⟩ |
      ⟨entity, current, sp, hadm, _⟩
    · exact h0
    · rw [Game.GetMapByType, Game.GetMapDimensions, hnil] at hmap
      cases hmap
    · have hs := hadm.map
      rw [hmap, Except.ok.injEq] at hs
      subst hs
      exact absurd ⟨entity, current, hadm⟩ hex

/-! ## Rounds, again -/

/-- Without a spawn point the loop of `startNewRound` divides by zero at the first player. -/
theorem respawnLoop_no_spawn : ∀ (es : List Entity) (i : Nat),
    (∃ e ∈ es, e.isPlayer = true) → respawnLoop [] es i = .error Panic.divideByZero := by
  intro es
  induction es with
  | nil => rintro i ⟨e, he, _⟩; cases he
  | cons e rest ih =>
    intro i hex
    cases e with
    | player p =>
      rw [respawnLoop]
      simp
    | other o =>
      have hrest : ∃ e ∈ rest, e.isPlayer = true := by
        obtain ⟨e, he, hp⟩ := hex
        rcases List.mem_cons.1 he with rfl | hmem
        · cases hp
        · exact ⟨e, hmem, hp⟩
      rw [respawnLoop]
      simp only [ih i hrest]

theorem NewGame_symbols {game : Game} (hmap : game.gameMap = MapDefault) :
    game.GetMapByType = .ok defaultSymbols := by
  have h : game.GetMapByType = NewGame.GetMapByType :=
    Game.GetMapByType_congr (by rw [hmap]; rfl)
  rw [h]
  rfl

set_option maxRecDepth 100000 in
theorem defaultSymbols_spawn :
    defaultSymbols MapType.MapTypeSpawn =
      [{ X := 18, Y := -17 }, { X := 0, Y := -16 }, { X := -17, Y := -15 }, { X := 8, Y := -3 },
       { X := 0, Y := 0 }, { X := -8, Y := 4 }, { X := -17, Y := 12 }, { X := 16, Y := 12 },
       { X := 0, Y := 15 }] := by
  decide

/-! ## The default arena -/

theorem mem_cellsOfType {grid : List (List Char)} {w h : Nat} {t : MapType} {c : Coordinate} :
    c ∈ cellsOfType grid w h t ↔
      ∃ x y, x < w ∧ y < h ∧ isGlyphOf t (glyphAt grid x y) ∧ c = centred w h x y := by
  unfold cellsOfType
  rw [List.mem_filterMap]
  constructor
  · rintro ⟨⟨x, y⟩, hmem, hc⟩
    have hxy := ((rawCells_rowMajor w h).2 x y).1 hmem
    by_cases hcl : isGlyphOf t (glyphAt grid x y)
    · simp only [hcl, if_true, Option.some.injEq] at hc
      exact ⟨x, y, hxy.1, hxy.2, hcl, hc.symm⟩
    · simp [hcl] at hc
  · rintro ⟨x, y, hx, hy, hcl, rfl⟩
    exact ⟨(x, y), ((rawCells_rowMajor w h).2 x y).2 ⟨hx, hy⟩, by simp [hcl]⟩

theorem defaultSymbols_eq (t : MapType) :
    defaultSymbols t = cellsOfType MapDefault 40 40 t :=
  scanRows_rectangular MapDefault 40 t (by decide)

theorem MapDefault_border : ∀ i : Fin 40,
    isGlyphOf MapType.MapTypeWall (glyphAt MapDefault 0 i.val) ∧
    isGlyphOf MapType.MapTypeWall (glyphAt MapDefault 39 i.val) ∧
    isGlyphOf MapType.MapTypeWall (glyphAt MapDefault i.val 0) ∧
    isGlyphOf MapType.MapTypeWall (glyphAt MapDefault i.val 39) := by
  decide

/-- Every cell of the border of the default arena is a wall. -/
theorem border_is_wall {c : Coordinate} (hx : -20 ≤ c.X ∧ c.X ≤ 19) (hy : -20 ≤ c.Y ∧ c.Y ≤ 19)
    (hb : c.X = -20 ∨ c.X = 19 ∨ c.Y = -20 ∨ c.Y = 19) :
    c ∈ defaultSymbols MapType.MapTypeWall := by
  obtain ⟨X, Y, okX, okY⟩ := c
  simp only at hx hy hb
  rw [defaultSymbols_eq, mem_cellsOfType]
  have hxn : (X + 20).toNat < 40 := by omega
  have hyn : (Y + 20).toNat < 40 := by omega
  have hc : (⟨X, Y, okX, okY⟩ : Coordinate)
      = centred 40 40 (X + 20).toNat (Y + 20).toNat := by
    rw [Coordinate.eq_iff]
    simp only [centred, Coordinate.wrapped_X, Coordinate.wrapped_Y, wrap64]
    constructor <;> omega
  refine ⟨(X + 20).toNat, (Y + 20).toNat, hxn, hyn, ?_, hc⟩
  rcases hb with h | h | h | h
  · have h0 : (X + 20).toNat = 0 := by omega
    rw [h0]
    exact (MapDefault_border ⟨_, hyn⟩).1
  · have h0 : (X + 20).toNat = 39 := by omega
    rw [h0]
    exact (MapDefault_border ⟨_, hyn⟩).2.1
  · have h0 : (Y + 20).toNat = 0 := by omega
    rw [h0]
    exact (MapDefault_border ⟨_, hxn⟩).2.2.1
  · have h0 : (Y + 20).toNat = 39 := by omega
    rw [h0]
    exact (MapDefault_border ⟨_, hxn⟩).2.2.2

set_option maxRecDepth 100000 in
/-- The spawn points of the default arena are no walls and lie inside the border. -/
theorem spawn_in_arena : ∀ c ∈ defaultSymbols MapType.MapTypeSpawn,
    c ∉ defaultSymbols MapType.MapTypeWall ∧ -19 ≤ c.X ∧ c.X ≤ 18 ∧ -19 ≤ c.Y ∧ c.Y ≤ 18 := by
  rw [defaultSymbols_spawn]
  decide

theorem displacement_bounds (d : Direction) :
    -1 ≤ (displacement d).X ∧ (displacement d).X ≤ 1 ∧
    -1 ≤ (displacement d).Y ∧ (displacement d).Y ≤ 1 := by
  unfold displacement
  split_ifs <;> simp

theorem respawned_ID {sp : List Coordinate} {es es1 : List Entity}
    (h : List.Forall₂ (Respawned sp) es es1) : es1.map Entity.ID = es.map Entity.ID := by
  induction h with
  | nil => rfl
  | @cons a b _ _ hr _ ih =>
    rw [List.map_cons, List.map_cons, ih]
    cases a with
    | player p =>
      obtain ⟨c, _, hb⟩ := hr
      rw [hb]
      rfl
    | other o =>
      have hb : b = Entity.other o := hr
      rw [hb]

theorem MoveAction.commit_WF {action : MoveAction} {game : Game} (entity : Entity)
    (position : Coordinate) (hwf : game.WF) : (action.commit game entity position).WF := by
  unfold Game.WF
  rw [MoveAction.commit_Entities, List.map_map]
  have : (Entity.ID ∘ fun e => if e.ID = action.ID then e.Move position else e) = Entity.ID := by
    funext e
    simp only [Function.comp]
    split <;> simp
  rw [this]
  exact hwf

/-- A move keeps the grid, the distinct keys and the players inside the default arena. -/
theorem MoveAction.Perform_contained {action : MoveAction} {game game1 : Game}
    (hp : action.Perform game = .ok game1) (hmap : game.gameMap = MapDefault) (hwf : game.WF)
    (hin : game.Contained) :
    game1.gameMap = MapDefault ∧ game1.WF ∧ game1.Contained := by
  rcases MoveAction.Perform_outcome action game with h0 | ⟨h0, _⟩ | ⟨entity, current, sp, hadm, h0⟩
  · rw [h0, Except.ok.injEq] at hp
    subst hp
    exact ⟨hmap, hwf, hin⟩
  · rw [h0] at hp
    cases hp
  · rw [h0, Except.ok.injEq] at hp
    subst hp
    refine ⟨by rw [MoveAction.commit_gameMap, hmap], MoveAction.commit_WF _ _ hwf, ?_⟩
    have hsp : sp = defaultSymbols := by
      have := hadm.map
      rw [NewGame_symbols hmap, Except.ok.injEq] at this
      exact this.symm
    subst hsp
    obtain ⟨hent, hid⟩ := Game.GetEntity_some hadm.found
    intro e1 he1 hpl
    rw [MoveAction.commit_Entities] at he1
    obtain ⟨x, hx, rfl⟩ := List.mem_map.1 he1
    by_cases hxid : x.ID = action.ID
    · have hxe : x = entity := map_ID_nodup_inj hwf hx hent (hxid.trans hid.symm)
      subst hxe
      simp only [hxid, if_true, Entity.isPlayer_Move] at hpl ⊢
      have hcur := hin x hx hpl
      unfold Entity.inArena at hcur ⊢
      rw [hadm.positioner] at hcur
      rw [Entity.Position?_Move _ hadm.positioner]
      have hb := displacement_bounds action.Direction
      have hX : (current.Add (displacement action.Direction)).X
          = current.X + (displacement action.Direction).X :=
        wrap64_of_isInt64 (by unfold isInt64; omega)
      have hY : (current.Add (displacement action.Direction)).Y
          = current.Y + (displacement action.Direction).Y :=
        wrap64_of_isInt64 (by unfold isInt64; omega)
      refine ⟨hadm.noWall, ?_⟩
      by_contra hout
      apply hadm.noWall
      apply border_is_wall
      · rw [hX]; omega
      · rw [hY]; omega
      · rw [hX, hY]; omega
    · simp only [hxid, if_false] at hpl ⊢
      exact hin x hx hpl

/-- The start of a round keeps the grid, the distinct keys and the players inside the
default arena, and it returns. -/
theorem Game.startNewRound_contained {game : Game} (hmap : game.gameMap = MapDefault)
    (hwf : game.WF) :
    ∃ game1, game.startNewRound = .ok game1 ∧
      game1.gameMap = MapDefault ∧ game1.WF ∧ game1.Contained := by
  have hsym := NewGame_symbols hmap
  have hsp : defaultSymbols MapType.MapTypeSpawn ≠ [] := by
    rw [defaultSymbols_spawn]
    simp
  obtain ⟨es1, hr, hstart⟩ := Game.startNewRound_eq hsym hsp
  obtain ⟨es2, hr2, hf, _, _⟩ := respawnLoop_spec _ hsp game.Entities 0
  rw [hr, Except.ok.injEq] at hr2
  subst hr2
  refine ⟨_, hstart, by simpa using hmap, ?_, ?_⟩
  · unfold Game.WF
    rw [Game.sendChange_Entities]
    simp only []
    rw [respawned_ID hf]
    exact hwf
  · intro e1 he1 hpl
    rw [Game.sendChange_Entities] at he1
    obtain ⟨c, hc, hpos⟩ := respawned_player_at_spawn hf e1 he1 hpl
    unfold Entity.inArena
    rw [hpos]
    exact spawn_in_arena c hc

theorem runSteps_contained : ∀ (steps : List Step) (game : Game), game.gameMap = MapDefault →
    game.WF → game.Contained →
    ∃ game1, runSteps steps game = .ok game1 ∧
      game1.gameMap = MapDefault ∧ game1.WF ∧ game1.Contained := by
  intro steps
  induction steps with
  | nil => intro game hmap hwf hin; exact ⟨game, rfl, hmap, hwf, hin⟩
  | cons step rest ih =>
    intro game hmap hwf hin
    have hstep : ∃ game1, step.run game = .ok game1 ∧
        game1.gameMap = MapDefault ∧ game1.WF ∧ game1.Contained := by
      cases step with
      | move action =>
        have hne : game.gameMap ≠ [] := by
          rw [hmap]
          decide
        obtain ⟨g1, h1⟩ := MoveAction.Perform_total action hne
        exact ⟨g1, h1, MoveAction.Perform_contained h1 hmap hwf hin⟩
      | newRound => exact Game.startNewRound_contained hmap hwf
    obtain ⟨g1, h1, hm1, hw1, hc1⟩ := hstep
    obtain ⟨g2, h2, hrest⟩ := ih g1 hm1 hw1 hc1
    exact ⟨g2, by simp [runSteps, h1, h2], hrest⟩

/-! ## A move and the move after it -/

/-- In a game with a single player, an empty change slot and no throttling entry in the
way, whose cell to the right of the player is no wall, the move to the right publishes one
`MoveChange` with the position one step to the right and moves the player there; a
following move to the right stamped less than `moveThrottle` later fails the throttle gate
and returns the state it was given. -/
theorem move_right_then_throttled (game : Game) (p : Player) (created created2 : Time)
    (symbols : Symbols) (hents : game.Entities = [.player p])
    (hmap : game.GetMapByType = .ok symbols)
    (hfree : p.CurrentPosition.Add { X := 1, Y := 0 } ∉ symbols MapType.MapTypeWall)
    (hallowed : game.checkLastActionTime (MoveAction.actionKey p.UUID) created moveThrottle
      = true)
    (hslot : game.ChangeChannel = none)
    (hclose : created ≤ created2 ∧ created2 - created < moveThrottle) :
    ∃ game1, MoveAction.Perform ⟨DirectionRight, p.UUID, created⟩ game = .ok game1 ∧
      game1.Entities = [.player (p.Move (p.CurrentPosition.Add { X := 1, Y := 0 }))] ∧
      game1.ChangeChannel = some (Change.MoveChange
        (.player (p.Move (p.CurrentPosition.Add { X := 1, Y := 0 }))) DirectionRight
        (p.CurrentPosition.Add { X := 1, Y := 0 })) ∧
      game1.checkLastActionTime (MoveAction.actionKey p.UUID) created2 moveThrottle = false ∧
      MoveAction.Perform ⟨DirectionRight, p.UUID, created2⟩ game1 = .ok game1 := by
  have hdisp : displacement DirectionRight = { X := 1, Y := 0 } := by decide
  have hne : p.CurrentPosition.Add { X := 1, Y := 0 } ≠ p.CurrentPosition := by
    intro h
    have hX : wrap64 (p.CurrentPosition.X + 1) = p.CurrentPosition.X :=
      congrArg Coordinate.X h
    unfold wrap64 at hX
    omega
  have hadm : MoveAction.Admitted ⟨DirectionRight, p.UUID, created⟩ game (.player p)
      p.CurrentPosition symbols := by
    refine ⟨by simp [Game.GetEntity, hents, Entity.ID], rfl, rfl, hallowed, hmap, ?_, ?_⟩
    · simpa [hdisp] using hfree
    · rw [Game.collision_free_iff]
      intro x hx _ hpos
      rw [hents, List.mem_singleton] at hx
      subst hx
      simp only [hdisp, Entity.Position?, Player.Position, Option.some.injEq] at hpos
      exact hne hpos.symm
  have hperf := MoveAction.Perform_of_admitted hadm
  simp only [hdisp] at hperf
  refine ⟨_, hperf, ?_, ?_, ?_, ?_⟩
  · rw [MoveAction.commit_Entities, hents]
    simp [Entity.ID, Entity.Move]
  · rw [MoveAction.commit_ChangeChannel, hslot]
    rfl
  · have hl := MoveAction.commit_lastAction ⟨DirectionRight, p.UUID, created⟩ game
      (.player p) (p.CurrentPosition.Add { X := 1, Y := 0 }) (MoveAction.actionKey p.UUID)
    simp only [Entity.ID, if_true] at hl
    unfold Game.checkLastActionTime
    rw [hl]
    have hgt : created > created2 + (-1) * moveThrottle := by linarith [hclose.2]
    show (if created > created2 + (-1) * moveThrottle then false else true) = false
    rw [if_pos hgt]
  · have hl := MoveAction.commit_lastAction ⟨DirectionRight, p.UUID, created⟩ game
      (.player p) (p.CurrentPosition.Add { X := 1, Y := 0 }) (MoveAction.actionKey p.UUID)
    simp only [Entity.ID, if_true] at hl
    refine @MoveAction.Perform_throttled ⟨DirectionRight, p.UUID, created2⟩ _ created hl ?_
    show created2 - moveThrottle < created
    linarith [hclose.2]

/-! ## Claims -/

/-- Claim C1: from a state in which no two distinct players share a coordinate, every
sequence of `MoveAction.Perform` calls that runs to its end leaves a state in which no two
distinct players share a coordinate; on a non-empty grid every sequence runs to its end. -/
theorem C1_players_never_overlap (game : Game) (actions : List MoveAction)
    (h : game.NoOverlap) :
    (∀ game1, performAll actions game = .ok game1 → game1.NoOverlap) ∧
    (game.gameMap ≠ [] → ∃ game1, performAll actions game = .ok game1 ∧ game1.NoOverlap) := by
  refine ⟨fun game1 h1 => performAll_NoOverlap actions game game1 h1 h, fun hmap => ?_⟩
  obtain ⟨game1, h1⟩ := performAll_total actions game hmap
  exact ⟨game1, h1, performAll_NoOverlap actions game game1 h1 h⟩

theorem C1_players_never_overlap_witness :
    duelGame.NoOverlap ∧
    ((∀ game1, performAll [⟨DirectionRight, exampleId 1, 0⟩, ⟨DirectionLeft, exampleId 2, 0⟩,
        ⟨DirectionUp, exampleId 1, 200 * Millisecond⟩] duelGame = .ok game1 → game1.NoOverlap) ∧
      (duelGame.gameMap ≠ [] → ∃ game1,
        performAll [⟨DirectionRight, exampleId 1, 0⟩, ⟨DirectionLeft, exampleId 2, 0⟩,
          ⟨DirectionUp, exampleId 1, 200 * Millisecond⟩] duelGame = .ok game1 ∧
        game1.NoOverlap)) :=
  ⟨by decide, C1_players_never_overlap duelGame _ (by decide)⟩

/-- Claim C2: when the position of an entity of the table plus the displacement of the
direction is a wall coordinate, the move returns the state it was given: the position of
the entity and the change slot are as before. -/
theorem C2_wall_blocks_move (game : Game) (e : Entity) (d : Direction) (created : Time)
    (current : Coordinate) (symbols : Symbols) (hwf : game.WF) (he : e ∈ game.Entities)
    (hpos : e.Position? = some current) (hmap : game.GetMapByType = .ok symbols)
    (hwall : current.Add (displacement d) ∈ symbols MapType.MapTypeWall) :
    ∃ game1, MoveAction.Perform ⟨d, e.ID, created⟩ game = .ok game1 ∧
      game1.GetEntity e.ID = some e ∧ game1.ChangeChannel = game.ChangeChannel ∧
      game1 = game := by
  have hget := Game.GetEntity_of_mem hwf he
  refine ⟨game, ?_, hget, rfl, rfl⟩
  rcases MoveAction.Perform_outcome ⟨d, e.ID, created⟩ game with
    h0 | ⟨_, h0, _⟩ | ⟨entity, c, sp, hadm, _⟩
  · exact h0
  · rw [Game.GetMapByType, Game.GetMapDimensions, h0] at hmap
    cases hmap
  · have hfound := hadm.found
    simp only [hget, Option.some.injEq] at hfound
    subst hfound
    have hc := hadm.positioner
    rw [hpos, Option.some.injEq] at hc
    subst hc
    have hs := hadm.map
    rw [hmap, Except.ok.injEq] at hs
    subst hs
    exact absurd hwall hadm.noWall

theorem C2_wall_blocks_move_witness :
    ∃ game1, MoveAction.Perform ⟨DirectionRight, (Entity.player (examplePlayer 1 0 0)).ID, 0⟩
        arenaGame = .ok game1 ∧
      game1.GetEntity (Entity.player (examplePlayer 1 0 0)).ID
        = some (.player (examplePlayer 1 0 0)) ∧
      game1.ChangeChannel = arenaGame.ChangeChannel ∧ game1 = arenaGame :=
  C2_wall_blocks_move arenaGame (.player (examplePlayer 1 0 0)) DirectionRight 0
    { X := 0, Y := 0 } arenaSymbols (by decide) (by decide) rfl rfl (by decide)

/-- Claim C4: while `WaitForRound` is set, a turn of the action loop returns the state it
was given, whatever the action and whatever the ledger holds: no position, score, change or
ledger entry is written. -/
theorem C4_waiting_rejects_actions (game : Game) (action : Action)
    (h : game.WaitForRound = true) : game.watchActions action = .ok game := by
  simp [Game.watchActions, h]

theorem C4_waiting_rejects_actions_witness :
    waitingGame.WaitForRound = true ∧
    waitingGame.watchActions (MoveAction.toAction ⟨DirectionUp, exampleId 1, 0⟩)
      = .ok waitingGame :=
  ⟨rfl, C4_waiting_rejects_actions waitingGame _ rfl⟩

/-- Claim C3: of two moves of one entity whose `Created` stamps are less than `moveThrottle`
apart, in either order of the stamps and whatever moves the loop handles between them, one at
least returns the state it was given: it moves nothing and writes no ledger entry. -/
theorem C3_throttle_at_most_one (g1 g2 g3 : Game) (a b : MoveAction)
    (between : List MoveAction) (hid : a.ID = b.ID)
    (hclose : |a.Created - b.Created| < moveThrottle)
    (ha : g1.watchActions a.toAction = .ok g2) (hmid : watchMoves between g2 = .ok g3) :
    g2 = g1 ∨ g3.watchActions b.toAction = .ok g3 := by
  unfold Game.watchActions at ha
  by_cases hw : g1.WaitForRound = true
  · simp only [hw, if_true, Except.ok.injEq] at ha
    exact Or.inl ha.symm
  · simp only [hw] at ha
    change a.Perform g1 = .ok g2 at ha
    rcases MoveAction.Perform_outcome a g1 with h0 | ⟨h0, _⟩ | ⟨e, c, sp, hadm, h0⟩
    · rw [h0] at ha
      cases ha
      exact Or.inl rfl
    · rw [h0] at ha
      cases ha
    · rw [h0] at ha
      cases ha
      right
      have hkey : e.ID = b.ID := (Game.GetEntity_some hadm.found).2.trans hid
      have h2 : ∃ last, (a.commit g1 e (c.Add (displacement a.Direction))).lastAction
          (MoveAction.actionKey b.ID) = some last ∧ a.Created ≤ last :=
        ⟨a.Created, by simp [MoveAction.commit_lastAction, hkey], le_refl _⟩
      obtain ⟨last, hl, hle⟩ := watchMoves_ledger_mono between _ g3 _ _ hmid h2
      have habs := abs_lt.1 hclose
      have hb : b.Perform g3 = .ok g3 :=
        MoveAction.Perform_throttled hl (by linarith)
      unfold Game.watchActions
      split
      · rfl
      · exact hb

set_option maxRecDepth 100000 in
theorem C3_throttle_at_most_one_witness :
    movedGame = localGame ∨
      movedGame.watchActions (MoveAction.toAction ⟨DirectionDown, exampleId 1, 50 * Millisecond⟩)
        = .ok movedGame :=
  C3_throttle_at_most_one localGame movedGame movedGame ⟨DirectionUp, exampleId 1, 0⟩
    ⟨DirectionDown, exampleId 1, 50 * Millisecond⟩
    [⟨DirectionRight, exampleId 9, 20 * Millisecond⟩] rfl (by decide) rfl rfl

/-- Claim C5, at a concrete state: the tally of the player goes from nine to ten, and
`WaitForRound` is false and the player is not the `RoundWinner` after `AddScore`. -/
theorem C5_counterexample :
    matchPointGame.scoreOf (exampleId 1) = 9 ∧
    (matchPointGame.AddScore (exampleId 1)).scoreOf (exampleId 1) = roundOverScore ∧
    (matchPointGame.AddScore (exampleId 1)).WaitForRound = false ∧
    (matchPointGame.AddScore (exampleId 1)).RoundWinner ≠ exampleId 1 := by
  decide

/-- Claim C5, amended: `AddScore` adds one to the tally of `id` in the arithmetic of a Go
`int`, so that the tally is the old one plus one unless the old one is the largest `int`,
and changes nothing else, `WaitForRound` and `RoundWinner` included, also when the tally
reaches `roundOverScore`; it is `queueNewRound` that sets `WaitForRound` and records the
winner. -/
theorem C5_add_score_only_counts (game : Game) (id : UUID) :
    (game.AddScore id).scoreOf id = wrap64 (game.scoreOf id + 1) ∧
    (isInt64 (game.scoreOf id + 1) → (game.AddScore id).scoreOf id = game.scoreOf id + 1) ∧
    (game.scoreOf id = 9223372036854775807 →
      (game.AddScore id).scoreOf id = -9223372036854775808) ∧
    (∀ k, k ≠ id → (game.AddScore id).Score k = game.Score k) ∧
    (game.AddScore id).WaitForRound = game.WaitForRound ∧
    (game.AddScore id).RoundWinner = game.RoundWinner ∧
    (game.AddScore id).NewRoundAt = game.NewRoundAt ∧
    (game.AddScore id).Entities = game.Entities ∧
    (game.AddScore id).ChangeChannel = game.ChangeChannel ∧
    (game.AddScore id).lastAction = game.lastAction ∧
    (∀ now, (game.queueNewRound id now).WaitForRound = true ∧
      (game.queueNewRound id now).RoundWinner = id) := by
  have hadd : (game.AddScore id).scoreOf id = wrap64 (game.scoreOf id + 1) := by
    simp [Game.AddScore, Game.scoreOf]
  refine ⟨hadd, ?_, ?_, ?_, rfl, rfl, rfl, rfl, rfl, rfl, ?_⟩
  · intro hin
    rw [hadd, wrap64_of_isInt64 hin]
  · intro hmax
    rw [hadd, hmax]
    decide
  · intro k hk
    simp [Game.AddScore, hk]
  · intro now
    unfold Game.queueNewRound Game.sendChange
    cases game.ChangeChannel <;> exact ⟨rfl, rfl⟩

/-- Claim C6: on a grid with a spawn cell `startNewRound` returns a state in which
`WaitForRound` is false, the score table is empty so that every tally reads 0, every player
is at a spawn point, every other entity is as before, and `RoundStartChange` is in the change
slot when the slot was empty. -/
theorem C6_start_new_round (game : Game) (hspawn : ∃ row ∈ game.gameMap, 'S' ∈ row) :
    ∃ game1 symbols, game.startNewRound = .ok game1 ∧ game.GetMapByType = .ok symbols ∧
      game1.WaitForRound = false ∧
      (∀ id, game1.Score id = none ∧ game1.scoreOf id = 0) ∧
      (∀ e ∈ game1.Entities, e.isPlayer = true →
        ∃ c ∈ symbols MapType.MapTypeSpawn, e.Position? = some c) ∧
      List.Forall₂ (Respawned (symbols MapType.MapTypeSpawn)) game.Entities game1.Entities ∧
      (game.ChangeChannel = none → game1.ChangeChannel = some Change.RoundStartChange) ∧
      game1.gameMap = game.gameMap := by
  have hne : game.gameMap ≠ [] := by
    obtain ⟨row, hrow, _⟩ := hspawn
    exact List.ne_nil_of_mem hrow
  obtain ⟨symbols, hmap⟩ := Game.GetMapByType_ok_of_ne_nil hne
  have hsp := spawn_mem_of_glyph hmap hspawn
  obtain ⟨es1, hr, hstart⟩ := Game.startNewRound_eq hmap hsp
  obtain ⟨es2, hr2, hf, _, _⟩ := respawnLoop_spec _ hsp game.Entities 0
  rw [hr, Except.ok.injEq] at hr2
  subst hr2
  refine ⟨_, symbols, hstart, hmap, by simp, ?_, ?_, ?_, ?_, by simp⟩
  · intro id
    simp [Game.scoreOf]
  · simpa using respawned_player_at_spawn hf
  · simpa using hf
  · intro hnone
    simp [Game.sendChange, hnone]

theorem C6_start_new_round_witness :
    ∃ game1 symbols, localGame.startNewRound = .ok game1 ∧
      localGame.GetMapByType = .ok symbols ∧
      game1.WaitForRound = false ∧
      (∀ id, game1.Score id = none ∧ game1.scoreOf id = 0) ∧
      (∀ e ∈ game1.Entities, e.isPlayer = true →
        ∃ c ∈ symbols MapType.MapTypeSpawn, e.Position? = some c) ∧
      List.Forall₂ (Respawned (symbols MapType.MapTypeSpawn)) localGame.Entities
        game1.Entities ∧
      (localGame.ChangeChannel = none → game1.ChangeChannel = some Change.RoundStartChange) ∧
      game1.gameMap = localGame.gameMap :=
  C6_start_new_round localGame (by decide)

/-- Claim C7: with `N ≥ 1` spawn points, `startNewRound` moves the player number `i` of the
enumeration, players only being counted, to the spawn point number `i mod N`; with three
spawn points the fourth player is where the first is. -/
theorem C7_round_robin (game : Game) (symbols : Symbols)
    (hmap : game.GetMapByType = .ok symbols)
    (hN : 1 ≤ (symbols MapType.MapTypeSpawn).length) :
    ∃ game1, game.startNewRound = .ok game1 ∧
      game1.players.length = game.players.length ∧
      (∀ i e, game.players[i]? = some e →
        ∃ c, (symbols MapType.MapTypeSpawn)[i % (symbols MapType.MapTypeSpawn).length]? = some c ∧
          game1.players[i]? = some (e.Move c)) ∧
      ((symbols MapType.MapTypeSpawn).length = 3 → ∀ e0 e3,
        game1.players[0]? = some e0 → game1.players[3]? = some e3 →
          e3.Position? = e0.Position?) := by
  have hsp : symbols MapType.MapTypeSpawn ≠ [] := List.length_pos.1 hN
  obtain ⟨es1, hr, hstart⟩ := Game.startNewRound_eq hmap hsp
  obtain ⟨es2, hr2, _, hl, hk⟩ := respawnLoop_spec _ hsp game.Entities 0
  rw [hr, Except.ok.injEq] at hr2
  subst hr2
  have hplayers : (Game.sendChange { game with
      WaitForRound := false, Score := fun _ => none, Entities := es1 }
        Change.RoundStartChange).players = es1.filter Entity.isPlayer := by
    simp [Game.players]
  have hgen : ∀ i e, game.players[i]? = some e →
      ∃ c, (symbols MapType.MapTypeSpawn)[i % (symbols MapType.MapTypeSpawn).length]? = some c ∧
        (es1.filter Entity.isPlayer)[i]? = some (e.Move c) := by
    intro i e he
    simpa using hk i e he
  refine ⟨_, hstart, by rw [hplayers]; exact hl, by rw [hplayers]; exact hgen, ?_⟩
  rw [hplayers]
  intro h3 e0 e3 h0 h3e
  have hlen3 : 3 < game.players.length := by
    have : 3 < (es1.filter Entity.isPlayer).length := by
      by_contra hc
      rw [List.getElem?_eq_none (Nat.le_of_not_lt hc)] at h3e
      cases h3e
    exact hl ▸ this
  have hp : ∀ i (hi : i < game.players.length), (game.players[i]).isPlayer = true := by
    intro i hi
    have hm : game.players[i] ∈ game.Entities.filter Entity.isPlayer := List.getElem_mem _
    exact (List.mem_filter.1 hm).2
  obtain ⟨c0, hc0, hm0⟩ := hgen 0 _ (List.getElem?_eq_getElem (by omega))
  obtain ⟨c3, hc3, hm3⟩ := hgen 3 _ (List.getElem?_eq_getElem hlen3)
  rw [h3] at hc0 hc3
  have hcc : c3 = c0 := by
    have h33 : 3 % 3 = 0 % 3 := by decide
    rw [h33, hc0] at hc3
    exact (Option.some.inj hc3).symm
  rw [h0, Option.some.injEq] at hm0
  rw [h3e, Option.some.injEq] at hm3
  obtain ⟨p0, hp0⟩ := Entity.Position?_of_isPlayer (hp 0 (by omega))
  obtain ⟨p3, hp3⟩ := Entity.Position?_of_isPlayer (hp 3 hlen3)
  rw [hm0, hm3, Entity.Position?_Move _ hp0, Entity.Position?_Move _ hp3, hcc]

theorem C7_round_robin_witness :
    ∃ game1, fourPlayerGame.startNewRound = .ok game1 ∧
      game1.players.length = fourPlayerGame.players.length ∧
      (∀ i e, fourPlayerGame.players[i]? = some e →
        ∃ c, (arena5Symbols MapType.MapTypeSpawn)[i %
            (arena5Symbols MapType.MapTypeSpawn).length]? = some c ∧
          game1.players[i]? = some (e.Move c)) ∧
      ((arena5Symbols MapType.MapTypeSpawn).length = 3 → ∀ e0 e3,
        game1.players[0]? = some e0 → game1.players[3]? = some e3 →
          e3.Position? = e0.Position?) :=
  C7_round_robin fourPlayerGame arena5Symbols rfl (by decide)

/-- The round of `fourPlayerGame`, evaluated: the four players go to the spawn points 0, 1,
2 and 0 again, the laser stays where it was. -/
theorem fourPlayerGame_round :
    (match fourPlayerGame.startNewRound with
      | .ok game1 => game1.Entities.map Entity.Position?
      | .error _ => []) =
    [some { X := -1, Y := 0 }, some { X := 0, Y := 0 }, some { X := 0, Y := 0 },
      some { X := 1, Y := 0 }, some { X := -1, Y := 0 }] := by
  decide

/-- Claim C8: on a non-empty rectangular grid of width `w` and height `h`,
`GetMapDimensions` returns `(w, h)` and `GetMapByType` lists under each classification the
centred coordinates of the raw cells whose glyph is of that classification (`'█'` a wall,
`'S'` a spawn point, anything else nothing), each cell once and row by row; the centred
coordinate of the raw cell `(x, y)` is `(x - w/2, y - h/2)`; on a grid of 40 by 40 the raw
cell `(0, 0)` is listed as `(-20, -20)` and the raw cell `(20, 20)` as `(0, 0)`. -/
theorem C8_map_index (game : Game) (w h : Nat) (hne : game.gameMap ≠ [])
    (hh : game.gameMap.length = h) (hw : ∀ row ∈ game.gameMap, row.length = w) :
    game.GetMapDimensions = .ok (w, h) ∧
    (classify '█' = MapType.MapTypeWall ∧ classify 'S' = MapType.MapTypeSpawn ∧
      ∀ glyph, glyph ≠ '█' → glyph ≠ 'S' → classify glyph = MapType.MapTypeNone) ∧
    ∃ symbols, game.GetMapByType = .ok symbols ∧
      (∀ t, symbols t = cellsOfType game.gameMap w h t) ∧
      (∀ t c, c ∈ symbols t ↔
        ∃ x y, x < w ∧ y < h ∧ isGlyphOf t (glyphAt game.gameMap x y) ∧ c = centred w h x y) ∧
      (rawCells w h).Pairwise (fun a b => a.2 < b.2 ∨ (a.2 = b.2 ∧ a.1 < b.1)) ∧
      (∀ x y, (x, y) ∈ rawCells w h ↔ x < w ∧ y < h) ∧
      (w < 9223372036854775808 → h < 9223372036854775808 → ∀ x y, x < w → y < h →
        (centred w h x y).X = (x : Int) - ((w / 2 : Nat) : Int) ∧
        (centred w h x y).Y = (y : Int) - ((h / 2 : Nat) : Int)) ∧
      (w = 40 → h = 40 →
        centred w h 0 0 = { X := -20, Y := -20 } ∧ centred w h 20 20 = { X := 0, Y := 0 } ∧
        (∀ t, isGlyphOf t (glyphAt game.gameMap 0 0) →
          (symbols t).head? = some { X := -20, Y := -20 }) ∧
        (∀ t, isGlyphOf t (glyphAt game.gameMap 20 20) →
          { X := 0, Y := 0 } ∈ symbols t)) := by
  cases hg : game.gameMap with
  | nil => exact absurd hg hne
  | cons row0 rest =>
    have hw0 : row0.length = w := hw row0 (by rw [hg]; exact List.mem_cons_self _ _)
    have hdim : game.GetMapDimensions = .ok (w, h) := by
      unfold Game.GetMapDimensions
      rw [hg] at hh ⊢
      simp only [hw0, hh]
    have hsym : ∀ t, scanRows (w / 2) (h / 2) 0 game.gameMap (fun _ => []) t
        = cellsOfType game.gameMap w h t := by
      intro t
      rw [← hh]
      exact scanRows_rectangular game.gameMap w t hw
    have hclass : classify '█' = MapType.MapTypeWall ∧ classify 'S' = MapType.MapTypeSpawn ∧
        ∀ glyph, glyph ≠ '█' → glyph ≠ 'S' → classify glyph = MapType.MapTypeNone := by
      refine ⟨by decide, by decide, ?_⟩
      intro glyph h1 h2
      exact (classify_eq_iff glyph MapType.MapTypeNone).2 ⟨h1, h2⟩
    rw [← hg]
    refine ⟨hdim, hclass, scanRows (w / 2) (h / 2) 0 game.gameMap (fun _ => []), ?_, hsym, ?_,
      (rawCells_rowMajor w h).1, (rawCells_rowMajor w h).2, ?_, ?_⟩
    · unfold Game.GetMapByType
      rw [hdim]
    · intro t c
      rw [hsym]
      exact mem_cellsOfType
    · intro hwb hhb x y hx hy
      constructor
      · exact wrap64_of_isInt64 (by unfold isInt64; omega)
      · exact wrap64_of_isInt64 (by unfold isInt64; omega)
    · rintro rfl rfl
      refine ⟨by decide, by decide, ?_, ?_⟩
      · intro t ht
        have hc : centred 40 40 0 0 = { X := -20, Y := -20 } := by decide
        rw [hsym]
        unfold cellsOfType rawCells
        simp [List.range_succ_eq_map, ht, hc]
      · intro t ht
        have hc : centred 40 40 20 20 = { X := 0, Y := 0 } := by decide
        rw [hsym]
        exact mem_cellsOfType.2 ⟨20, 20, by decide, by decide, ht, hc.symm⟩

set_option maxRecDepth 100000 in
theorem C8_map_index_witness :
    NewGame.GetMapDimensions = .ok (40, 40) ∧
    (classify '█' = MapType.MapTypeWall ∧ classify 'S' = MapType.MapTypeSpawn ∧
      ∀ glyph, glyph ≠ '█' → glyph ≠ 'S' → classify glyph = MapType.MapTypeNone) ∧
    ∃ symbols, NewGame.GetMapByType = .ok symbols ∧
      (∀ t, symbols t = cellsOfType NewGame.gameMap 40 40 t) ∧
      (∀ t c, c ∈ symbols t ↔
        ∃ x y, x < 40 ∧ y < 40 ∧ isGlyphOf t (glyphAt NewGame.gameMap x y) ∧
          c = centred 40 40 x y) ∧
      (rawCells 40 40).Pairwise (fun a b => a.2 < b.2 ∨ (a.2 = b.2 ∧ a.1 < b.1)) ∧
      (∀ x y, (x, y) ∈ rawCells 40 40 ↔ x < 40 ∧ y < 40) ∧
      (40 < 9223372036854775808 → 40 < 9223372036854775808 → ∀ x y, x < 40 → y < 40 →
        (centred 40 40 x y).X = (x : Int) - ((40 / 2 : Nat) : Int) ∧
        (centred 40 40 x y).Y = (y : Int) - ((40 / 2 : Nat) : Int)) ∧
      (40 = 40 → 40 = 40 →
        centred 40 40 0 0 = { X := -20, Y := -20 } ∧ centred 40 40 20 20 = { X := 0, Y := 0 } ∧
        (∀ t, isGlyphOf t (glyphAt NewGame.gameMap 0 0) →
          (symbols t).head? = some { X := -20, Y := -20 }) ∧
        (∀ t, isGlyphOf t (glyphAt NewGame.gameMap 20 20) →
          { X := 0, Y := 0 } ∈ symbols t)) :=
  C8_map_index NewGame 40 40 (by decide) (by decide) (by decide)

/-- The default map, evaluated: its first wall coordinate is `(-20, -20)`, the image of the
raw cell `(0, 0)`, and `(0, 0)`, the image of the raw cell `(20, 20)`, is a spawn point. -/
theorem MapDefault_cells :
    (defaultSymbols MapType.MapTypeWall).head? = some { X := -20, Y := -20 } ∧
    ({ X := 0, Y := 0 } : Coordinate) ∈ defaultSymbols MapType.MapTypeSpawn ∧
    glyphAt MapDefault 0 0 = '█' ∧ glyphAt MapDefault 20 20 = 'S' := by
  refine ⟨?_, ?_, by decide, by decide⟩
  · rw [defaultSymbols_eq]
    unfold cellsOfType rawCells
    have hc : centred 40 40 0 0 = { X := -20, Y := -20 } := by decide
    have hg : isGlyphOf MapType.MapTypeWall (glyphAt MapDefault 0 0) := by decide
    simp [List.range_succ_eq_map, hg, hc]
  · rw [defaultSymbols_spawn]
    decide

/-- Claim C9, at a concrete ledger: the only entry of the key is one second after the event
time 0, so no recorded event lies within `moveThrottle` before the event time, and
`checkLastActionTime` returns false. -/
theorem C9_counterexample :
    lateLedgerGame.lastAction (MoveAction.actionKey (exampleId 1)) = some Second ∧
    ¬ lateLedgerGame.recordedWithin (MoveAction.actionKey (exampleId 1)) 0 moveThrottle ∧
    lateLedgerGame.checkLastActionTime (MoveAction.actionKey (exampleId 1)) 0 moveThrottle
      = false := by
  decide

/-- Claim C9, amended: `checkLastActionTime` returns true exactly when the ledger has no entry
of the key later than `eventTime` plus the negated interval, the negation being that of a Go
`int64`; for every interval but the smallest `int64` this is `eventTime - minInterval`. An
entry later than `eventTime` blocks as well; when the entry is not later than `eventTime`
the test is the absence of a recorded event within `minInterval` before `eventTime`.
`updateLastActionTime` sets the entry of the key to `eventTime` whatever it was and leaves
every other entry and field as it was. -/
theorem C9_throttle_ledger (game : Game) (actionKey : String) (eventTime : Time)
    (minInterval : Duration) :
    (game.checkLastActionTime actionKey eventTime minInterval = true ↔
      ∀ last, game.lastAction actionKey = some last →
        ¬ (eventTime + wrap64 ((-1) * minInterval) < last)) ∧
    (isInt64 ((-1) * minInterval) →
      (game.checkLastActionTime actionKey eventTime minInterval = true ↔
        ∀ last, game.lastAction actionKey = some last → ¬ (eventTime - minInterval < last))) ∧
    (isInt64 ((-1) * minInterval) →
      (∀ last, game.lastAction actionKey = some last → last ≤ eventTime) →
      (game.checkLastActionTime actionKey eventTime minInterval = true ↔
        ¬ game.recordedWithin actionKey eventTime minInterval)) ∧
    wrap64 ((-1) * (-9223372036854775808)) = -9223372036854775808 ∧
    (game.updateLastActionTime actionKey eventTime).lastAction actionKey = some eventTime ∧
    (∀ k, k ≠ actionKey →
      (game.updateLastActionTime actionKey eventTime).lastAction k = game.lastAction k) ∧
    (game.updateLastActionTime actionKey eventTime).Entities = game.Entities ∧
    (game.updateLastActionTime actionKey eventTime).Score = game.Score ∧
    (game.updateLastActionTime actionKey eventTime).ChangeChannel = game.ChangeChannel ∧
    (game.updateLastActionTime actionKey eventTime).WaitForRound = game.WaitForRound := by
  have hwrap : game.checkLastActionTime actionKey eventTime minInterval = true ↔
      ∀ last, game.lastAction actionKey = some last →
        ¬ (eventTime + wrap64 ((-1) * minInterval) < last) := by
    rw [Game.checkLastActionTime_wrap_eq_true]
    constructor
    · intro h last hl
      exact not_lt.2 (h last hl)
    · intro h last hl
      exact not_lt.1 (h last hl)
  have hiff : isInt64 ((-1) * minInterval) →
      (game.checkLastActionTime actionKey eventTime minInterval = true ↔
        ∀ last, game.lastAction actionKey = some last →
          ¬ (eventTime - minInterval < last)) := by
    intro hin
    rw [hwrap, wrap64_of_isInt64 hin]
    constructor
    · intro h last hl hlt
      exact h last hl (by linarith)
    · intro h last hl hlt
      exact h last hl (by linarith)
  refine ⟨hwrap, hiff, ?_, by decide, by simp [Game.updateLastActionTime], ?_, rfl, rfl, rfl,
    rfl⟩
  · intro hin hle
    rw [hiff hin]
    unfold Game.recordedWithin
    cases hl : game.lastAction actionKey with
    | none => simp
    | some last =>
      have := hle last hl
      simp only [Option.some.injEq, forall_eq', not_and]
      constructor
      · intro h1 h2
        exact absurd h2 h1
      · intro h1 h2
        exact h1 h2 this
  · intro k hk
    simp [Game.updateLastActionTime, hk]

set_option maxRecDepth 100000 in
/-- Claim C10, at the state of `client_local.go`: the player is in the table, a mover with a
position and not throttled, and the stop move returns the state it was given: the ledger
has no entry of the key and the change slot is empty. -/
theorem C10_counterexample :
    localGame.GetEntity (exampleId 1) = some (.player (examplePlayer 1 (-1) (-5))) ∧
    (Entity.player (examplePlayer 1 (-1) (-5))).isMover = true ∧
    (Entity.player (examplePlayer 1 (-1) (-5))).Position? = some { X := -1, Y := -5 } ∧
    localGame.checkLastActionTime (MoveAction.actionKey (exampleId 1)) 0 moveThrottle = true ∧
    MoveAction.Perform ⟨DirectionStop, exampleId 1, 0⟩ localGame = .ok localGame ∧
    localGame.lastAction (MoveAction.actionKey (exampleId 1)) = none ∧
    localGame.ChangeChannel = none :=
  ⟨by decide, rfl, rfl, by decide, rfl, by decide, rfl⟩

/-- Claim C10, amended: for an entity of the table that is a mover with a position and is
not throttled, on a grid that is not empty, the candidate of a stop move is the current
position; a player is dropped, the state as before, for the player gate finds the player
itself; when the position is no wall coordinate and no player is at it, the move is applied:
the ledger entry is written, the `MoveChange` with the entity, `DirectionStop` and the
position goes to an empty change slot, and the table is as before. -/
theorem C10_stop_move (game : Game) (e : Entity) (created : Time) (current : Coordinate)
    (symbols : Symbols) (hwf : game.WF) (he : e ∈ game.Entities) (hmover : e.isMover = true)
    (hpos : e.Position? = some current)
    (hallowed : game.checkLastActionTime (MoveAction.actionKey e.ID) created moveThrottle = true)
    (hmap : game.GetMapByType = .ok symbols) :
    current.Add (displacement DirectionStop) = current ∧
    (e.isPlayer = true → MoveAction.Perform ⟨DirectionStop, e.ID, created⟩ game = .ok game) ∧
    (current ∉ symbols MapType.MapTypeWall →
      (∀ x ∈ game.Entities, x.isPlayer = true → x.Position? ≠ some current) →
      ∃ game1, MoveAction.Perform ⟨DirectionStop, e.ID, created⟩ game = .ok game1 ∧
        game1.lastAction (MoveAction.actionKey e.ID) = some created ∧
        (game.ChangeChannel = none →
          game1.ChangeChannel = some (Change.MoveChange e DirectionStop current)) ∧
        game1.Entities = game.Entities ∧ game1.GetEntity e.ID = some e) := by
  have hcand : current.Add (displacement DirectionStop) = current := by
    have hstop : displacement DirectionStop = { X := 0, Y := 0 } := by decide
    rw [Coordinate.eq_iff, Coordinate.Add_X, Coordinate.Add_Y, hstop]
    simp [wrap64_of_isInt64 current.okX, wrap64_of_isInt64 current.okY]
  have hget := Game.GetEntity_of_mem hwf he
  refine ⟨hcand, ?_, ?_⟩
  · intro hpl
    rcases MoveAction.Perform_outcome ⟨DirectionStop, e.ID, created⟩ game with
      h0 | ⟨h0, hnil, _⟩ | ⟨entity, c, sp, hadm, _⟩
    · exact h0
    · rw [Game.GetMapByType, Game.GetMapDimensions, hnil] at hmap
      cases hmap
    · have hfound := hadm.found
      simp only [hget, Option.some.injEq] at hfound
      subst hfound
      have hc := hadm.positioner
      rw [hpos, Option.some.injEq] at hc
      subst hc
      have hfree := (Game.collision_free_iff game _).1 hadm.noPlayer
      simp only [hcand] at hfree
      exact absurd hpos (hfree e he hpl)
  · intro hwall hfree
    have hadm : MoveAction.Admitted ⟨DirectionStop, e.ID, created⟩ game e current symbols :=
      ⟨hget, hmover, hpos, hallowed, hmap, by simpa [hcand] using hwall,
        by simpa [hcand] using (Game.collision_free_iff game current).2 hfree⟩
    have hents : game.Entities.map (fun x => if x.ID = e.ID then x.Move current else x)
        = game.Entities := by
      conv_rhs => rw [← List.map_id game.Entities]
      apply List.map_congr_left
      intro x hx
      by_cases hid : x.ID = e.ID
      · have hxe := map_ID_nodup_inj hwf hx he hid
        simp [hid, hxe, Entity.Move_self hpos]
      · simp [hid]
    refine ⟨_, MoveAction.Perform_of_admitted hadm, ?_, ?_, ?_, ?_⟩
    · simp [MoveAction.commit_lastAction]
    · intro hnone
      simp [MoveAction.commit, Game.updateLastActionTime, Game.sendChange, Game.moveEntity,
        hnone, hcand, Entity.Move_self hpos]
    · rw [MoveAction.commit_Entities]
      simpa [hcand] using hents
    · unfold Game.GetEntity
      rw [MoveAction.commit_Entities]
      simp only [hcand]
      rw [hents]
      exact hget

theorem C10_stop_move_witness :
    ({ X := 0, Y := 0 } : Coordinate).Add (displacement DirectionStop) = { X := 0, Y := 0 } ∧
    (exampleProbe.isPlayer = true →
      MoveAction.Perform ⟨DirectionStop, exampleProbe.ID, 0⟩ probeGame = .ok probeGame) ∧
    (({ X := 0, Y := 0 } : Coordinate) ∉ arenaSymbols MapType.MapTypeWall →
      (∀ x ∈ probeGame.Entities, x.isPlayer = true → x.Position? ≠ some { X := 0, Y := 0 }) →
      ∃ game1, MoveAction.Perform ⟨DirectionStop, exampleProbe.ID, 0⟩ probeGame = .ok game1 ∧
        game1.lastAction (MoveAction.actionKey exampleProbe.ID) = some 0 ∧
        (probeGame.ChangeChannel = none →
          game1.ChangeChannel =
            some (Change.MoveChange exampleProbe DirectionStop { X := 0, Y := 0 })) ∧
        game1.Entities = probeGame.Entities ∧ game1.GetEntity exampleProbe.ID
          = some exampleProbe) :=
  C10_stop_move probeGame exampleProbe 0 { X := 0, Y := 0 } arenaSymbols (by decide) (by decide)
    rfl rfl (by decide) rfl

/-- The stop move of the probe, evaluated: it is applied. -/
theorem probeGame_stop :
    (match MoveAction.Perform ⟨DirectionStop, exampleProbe.ID, 0⟩ probeGame with
      | .ok game1 => (game1.lastAction (MoveAction.actionKey exampleProbe.ID),
          game1.ChangeChannel, game1.Entities)
      | .error _ => (none, none, [])) =
    (some 0, some (Change.MoveChange exampleProbe DirectionStop { X := 0, Y := 0 }),
      [exampleProbe]) := by
  decide

/-- Claim C11: in the arena with an open interior of three by three cells, walls on the
border only and the spawn point at the raw cell `(1, 1)`, a single player being on the spawn
point, the move to the right at time `created` publishes one `MoveChange` whose position is
the spawn point plus `(1, 0)` and moves the player there, and a following move to the right
stamped less than `moveThrottle` later (0.01 s in the scenario) is dropped by the throttle
gate, although its target cell is free. -/
theorem C11_end_to_end (p : Player) (created created2 : Time)
    (hspawn : p.CurrentPosition = { X := -1, Y := -1 })
    (hclose : created ≤ created2 ∧ created2 - created < moveThrottle) :
    openArenaSymbols MapType.MapTypeSpawn = [{ X := -1, Y := -1 }] ∧
    centred 5 5 1 1 = { X := -1, Y := -1 } ∧
    (openArenaGame p).GetMapByType = .ok openArenaSymbols ∧
    (openArenaGame p).Entities = [.player p] ∧ (openArenaGame p).ChangeChannel = none ∧
    ∃ game1, MoveAction.Perform ⟨DirectionRight, p.UUID, created⟩ (openArenaGame p)
        = .ok game1 ∧
      game1.Entities = [.player (p.Move { X := 0, Y := -1 })] ∧
      game1.ChangeChannel = some (Change.MoveChange (.player (p.Move { X := 0, Y := -1 }))
        DirectionRight { X := 0, Y := -1 }) ∧
      ({ X := -1, Y := -1 } : Coordinate).Add { X := 1, Y := 0 } = { X := 0, Y := -1 } ∧
      ({ X := 1, Y := -1 } : Coordinate) ∉ openArenaSymbols MapType.MapTypeWall ∧
      (∀ x ∈ game1.Entities, x.isPlayer = true → x.Position? ≠ some { X := 1, Y := -1 }) ∧
      game1.checkLastActionTime (MoveAction.actionKey p.UUID) created2 moveThrottle = false ∧
      MoveAction.Perform ⟨DirectionRight, p.UUID, created2⟩ game1 = .ok game1 := by
  have hadd : ({ X := -1, Y := -1 } : Coordinate).Add { X := 1, Y := 0 } = { X := 0, Y := -1 } := by
    decide
  have hents : (openArenaGame p).Entities = [.player p] := rfl
  have hmap : (openArenaGame p).GetMapByType = .ok openArenaSymbols := by
    have h : (openArenaGame p).GetMapByType
        = Game.GetMapByType { NewGame with gameMap := openArena } :=
      Game.GetMapByType_congr (by unfold openArenaGame Game.AddEntity; split <;> rfl)
    rw [h]
    rfl
  obtain ⟨game1, h1, h2, h3, h4, h5⟩ := move_right_then_throttled (openArenaGame p) p created
    created2 openArenaSymbols hents hmap (by rw [hspawn, hadd]; decide) rfl rfl hclose
  rw [hspawn, hadd] at h2 h3
  refine ⟨by decide, by decide, hmap, hents, rfl, game1, h1, h2, h3, hadd, by decide, ?_, h4, h5⟩
  intro x hx _ hpos
  rw [h2, List.mem_singleton] at hx
  subst hx
  simp only [Entity.Position?, Player.Position, Player.Move, Option.some.injEq] at hpos
  exact absurd hpos (by decide)

theorem C11_end_to_end_witness :
    openArenaSymbols MapType.MapTypeSpawn = [{ X := -1, Y := -1 }] ∧
    centred 5 5 1 1 = { X := -1, Y := -1 } ∧
    (openArenaGame (examplePlayer 1 (-1) (-1))).GetMapByType = .ok openArenaSymbols ∧
    (openArenaGame (examplePlayer 1 (-1) (-1))).Entities
      = [.player (examplePlayer 1 (-1) (-1))] ∧
    (openArenaGame (examplePlayer 1 (-1) (-1))).ChangeChannel = none ∧
    ∃ game1, MoveAction.Perform ⟨DirectionRight, (examplePlayer 1 (-1) (-1)).UUID, 0⟩
        (openArenaGame (examplePlayer 1 (-1) (-1))) = .ok game1 ∧
      game1.Entities = [.player ((examplePlayer 1 (-1) (-1)).Move { X := 0, Y := -1 })] ∧
      game1.ChangeChannel = some (Change.MoveChange
        (.player ((examplePlayer 1 (-1) (-1)).Move { X := 0, Y := -1 }))
        DirectionRight { X := 0, Y := -1 }) ∧
      ({ X := -1, Y := -1 } : Coordinate).Add { X := 1, Y := 0 } = { X := 0, Y := -1 } ∧
      ({ X := 1, Y := -1 } : Coordinate) ∉ openArenaSymbols MapType.MapTypeWall ∧
      (∀ x ∈ game1.Entities, x.isPlayer = true → x.Position? ≠ some { X := 1, Y := -1 }) ∧
      game1.checkLastActionTime (MoveAction.actionKey (examplePlayer 1 (-1) (-1)).UUID)
        (10 * Millisecond) moveThrottle = false ∧
      MoveAction.Perform ⟨DirectionRight, (examplePlayer 1 (-1) (-1)).UUID, 10 * Millisecond⟩
        game1 = .ok game1 :=
  C11_end_to_end (examplePlayer 1 (-1) (-1)) 0 (10 * Millisecond) (by decide) (by decide)

/-- The arena of three by three grid cells, evaluated: the cell right of its spawn point is
the border wall, and the move to the right returns the state it was given. -/
theorem arenaGame_blocked :
    arenaSymbols MapType.MapTypeSpawn = [{ X := 0, Y := 0 }] ∧
    ({ X := 1, Y := 0 } : Coordinate) ∈ arenaSymbols MapType.MapTypeWall ∧
    MoveAction.Perform ⟨DirectionRight, exampleId 1, 0⟩ arenaGame = .ok arenaGame :=
  ⟨by decide, by decide, rfl⟩

/-- The scenario on `corridor`, evaluated: after the first move the player is at `(0, 0)`,
one step right of the spawn point `(-1, 0)`, and the cell `(1, 0)` the second move aims at
is free. -/
theorem corridorGame_moves :
    corridorSymbols MapType.MapTypeSpawn = [{ X := -1, Y := 0 }] ∧
    ({ X := 1, Y := 0 } : Coordinate) ∉ corridorSymbols MapType.MapTypeWall ∧
    (match MoveAction.Perform ⟨DirectionRight, exampleId 1, 0⟩ corridorGame with
      | .ok game1 => game1.Entities.map Entity.Position?
      | .error _ => []) = [some { X := 0, Y := 0 }] := by
  decide

/-- Claim C12: the entity table is a finite map keyed by identifier. After `AddEntity e` the
lookup of `e.ID` returns `e`, whether the key was there or not; a present key is overwritten
and the number of entries stays, an absent key adds one entry; the lookup of every other
key is as before. The lookup of an absent key returns nothing. After `RemoveEntity id` the
lookup of `id` returns nothing and every other lookup is as before; removing an absent key
leaves the table as it was. -/
theorem C12_entity_table (game : Game) (e : Entity) (id : UUID) :
    (game.AddEntity e).GetEntity e.ID = some e ∧
    (game.UpdateEntity e).GetEntity e.ID = some e ∧
    ((∃ x ∈ game.Entities, x.ID = e.ID) →
      (game.AddEntity e).Entities.length = game.Entities.length) ∧
    ((∀ x ∈ game.Entities, x.ID ≠ e.ID) →
      (game.AddEntity e).Entities.length = game.Entities.length + 1) ∧
    (∀ id1, id1 ≠ e.ID → (game.AddEntity e).GetEntity id1 = game.GetEntity id1) ∧
    ((∀ x ∈ game.Entities, x.ID ≠ id) → game.GetEntity id = none) ∧
    (game.RemoveEntity id).GetEntity id = none ∧
    (∀ id1, id1 ≠ id → (game.RemoveEntity id).GetEntity id1 = game.GetEntity id1) ∧
    ((∀ x ∈ game.Entities, x.ID ≠ id) → game.RemoveEntity id = game) := by
  have hany_iff : game.Entities.any (fun x => decide (x.ID = e.ID)) = true ↔
      ∃ x ∈ game.Entities, x.ID = e.ID := by
    simp [List.any_eq_true]
  have hadd : (game.AddEntity e).GetEntity e.ID = some e := by
    unfold Game.AddEntity Game.GetEntity
    by_cases hany : game.Entities.any (fun x => decide (x.ID = e.ID)) = true
    · rw [if_pos hany]
      obtain ⟨x, hx, hxe⟩ := hany_iff.1 hany
      have hsome : (game.Entities.find? (fun y => decide (y.ID = e.ID))).isSome = true := by
        rw [List.find?_isSome]
        exact ⟨x, hx, by simpa using hxe⟩
      obtain ⟨y, hy⟩ := Option.isSome_iff_exists.1 hsome
      exact find?_map_same e.ID (fun _ => e) (fun _ _ => rfl) game.Entities y hy
    · rw [if_neg hany]
      have hnone : game.Entities.find? (fun y => decide (y.ID = e.ID)) = none := by
        rw [List.find?_eq_none]
        intro x hx hxe
        exact hany (hany_iff.2 ⟨x, hx, by simpa using hxe⟩)
      simp [List.find?_append, hnone]
  refine ⟨hadd, hadd, ?_, ?_, ?_, ?_, ?_, ?_, ?_⟩
  · intro hex
    unfold Game.AddEntity
    rw [if_pos (hany_iff.2 hex)]
    simp
  · intro hall
    have hany : ¬ game.Entities.any (fun x => decide (x.ID = e.ID)) = true := by
      intro h
      obtain ⟨x, hx, hxe⟩ := hany_iff.1 h
      exact hall x hx hxe
    unfold Game.AddEntity
    rw [if_neg hany]
    simp
  · intro id1 hne
    unfold Game.AddEntity Game.GetEntity
    by_cases hany : game.Entities.any (fun x => decide (x.ID = e.ID)) = true
    · rw [if_pos hany]
      exact find?_map_other e.ID id1 hne (fun _ => e) (fun _ _ => rfl) game.Entities
    · rw [if_neg hany]
      have hne1 : ¬ e.ID = id1 := fun h => hne h.symm
      simp [List.find?_append, hne1]
  · intro hall
    unfold Game.GetEntity
    rw [List.find?_eq_none]
    intro x hx hxe
    exact hall x hx (by simpa using hxe)
  · unfold Game.RemoveEntity Game.GetEntity
    rw [List.find?_eq_none]
    intro x hx hxe
    have := (List.mem_filter.1 hx).2
    simp only [decide_eq_true_eq] at this hxe
    exact this hxe
  · intro id1 hne
    unfold Game.RemoveEntity Game.GetEntity
    exact find?_filter_other id id1 hne game.Entities
  · intro hall
    unfold Game.RemoveEntity
    have : game.Entities.filter (fun x => decide (x.ID ≠ id)) = game.Entities := by
      rw [List.filter_eq_self]
      intro x hx
      simpa using hall x hx
    rw [this]

/-- Claim C13: with the change channel as one optional slot, `sendChange c` puts `c` into
an empty slot and leaves a full slot with the change it holds, `c` being discarded; it
always returns, and every other field of the state is as before. A new game starts with
the slot empty. -/
theorem C13_send_change (game : Game) (c : Change) :
    (game.ChangeChannel = none → (game.sendChange c).ChangeChannel = some c) ∧
    (∀ c0, game.ChangeChannel = some c0 →
      (game.sendChange c).ChangeChannel = some c0 ∧ game.sendChange c = game) ∧
    (∃ game1, game.sendChange c = game1 ∧
      game1.Entities = game.Entities ∧ game1.gameMap = game.gameMap ∧
      game1.lastAction = game.lastAction ∧ game1.Score = game.Score ∧
      game1.NewRoundAt = game.NewRoundAt ∧ game1.RoundWinner = game.RoundWinner ∧
      game1.WaitForRound = game.WaitForRound ∧
      game1.IsAuthoritative = game.IsAuthoritative ∧
      game1.spawnPointIndex = game.spawnPointIndex) ∧
    NewGame.ChangeChannel = none := by
  refine ⟨?_, ?_, ⟨_, rfl, ?_⟩, rfl⟩
  · intro h
    simp [Game.sendChange, h]
  · intro c0 h
    simp [Game.sendChange, h]
  · unfold Game.sendChange
    cases game.ChangeChannel <;> exact ⟨rfl, rfl, rfl, rfl, rfl, rfl, rfl, rfl, rfl⟩

/-- Claim C14: on a grid that is not empty, a move changes the state exactly when (1) the
identifier resolves to an entity, (2) the entity is a mover with a position, (3)
`checkLastActionTime` allows its key at `Created` with `moveThrottle`, (4) the candidate
position is no wall coordinate and (5) no player is at the candidate, entities that are no
players not counting. When the gates hold the entity is at the candidate, the ledger entry
of the key is `Created` and the `MoveChange` with the entity, the direction and the candidate
is in the change slot if the slot was empty. The candidate is `Y - 1` for up, `Y + 1` for
down, `X - 1` for left and `X + 1` for right. -/
theorem C14_move_applied_iff (game : Game) (action : MoveAction) (symbols : Symbols)
    (hmap : game.GetMapByType = .ok symbols) :
    ((∃ game1, action.Perform game = .ok game1 ∧ game1 ≠ game) ↔
      ∃ entity current, game.GetEntity action.ID = some entity ∧
        entity.isMover = true ∧ entity.Position? = some current ∧
        game.checkLastActionTime (MoveAction.actionKey entity.ID) action.Created moveThrottle
          = true ∧
        current.Add (displacement action.Direction) ∉ symbols MapType.MapTypeWall ∧
        ∀ x ∈ game.Entities, x.isPlayer = true →
          x.Position? ≠ some (current.Add (displacement action.Direction))) ∧
    (∀ entity current, game.GetEntity action.ID = some entity →
      entity.isMover = true → entity.Position? = some current →
      game.checkLastActionTime (MoveAction.actionKey entity.ID) action.Created moveThrottle
        = true →
      current.Add (displacement action.Direction) ∉ symbols MapType.MapTypeWall →
      (∀ x ∈ game.Entities, x.isPlayer = true →
        x.Position? ≠ some (current.Add (displacement action.Direction))) →
      ∃ game1, action.Perform game = .ok game1 ∧
        game1.GetEntity action.ID
          = some (entity.Move (current.Add (displacement action.Direction))) ∧
        (entity.Move (current.Add (displacement action.Direction))).Position?
          = some (current.Add (displacement action.Direction)) ∧
        game1.lastAction (MoveAction.actionKey entity.ID) = some action.Created ∧
        (game.ChangeChannel = none → game1.ChangeChannel = some (Change.MoveChange
          (entity.Move (current.Add (displacement action.Direction))) action.Direction
          (current.Add (displacement action.Direction))))) ∧
    (∀ current : Coordinate,
      ((current.Add (displacement DirectionUp)).X = current.X ∧
        (current.Add (displacement DirectionUp)).Y = wrap64 (current.Y - 1)) ∧
      ((current.Add (displacement DirectionDown)).X = current.X ∧
        (current.Add (displacement DirectionDown)).Y = wrap64 (current.Y + 1)) ∧
      ((current.Add (displacement DirectionLeft)).X = wrap64 (current.X - 1) ∧
        (current.Add (displacement DirectionLeft)).Y = current.Y) ∧
      ((current.Add (displacement DirectionRight)).X = wrap64 (current.X + 1) ∧
        (current.Add (displacement DirectionRight)).Y = current.Y)) ∧
    (∀ n : Int, -9223372036854775808 ≤ n → n ≤ 9223372036854775807 → wrap64 n = n) ∧
    wrap64 (9223372036854775807 + 1) = -9223372036854775808 ∧
    wrap64 (-9223372036854775808 - 1) = 9223372036854775807 := by
  have hgates : ∀ entity current, game.GetEntity action.ID = some entity →
      entity.isMover = true → entity.Position? = some current →
      game.checkLastActionTime (MoveAction.actionKey entity.ID) action.Created moveThrottle
        = true →
      current.Add (displacement action.Direction) ∉ symbols MapType.MapTypeWall →
      (∀ x ∈ game.Entities, x.isPlayer = true →
        x.Position? ≠ some (current.Add (displacement action.Direction))) →
      action.Admitted game entity current symbols := by
    intro entity current h1 h2 h3 h4 h5 h6
    exact ⟨h1, h2, h3, h4, hmap, h5, (Game.collision_free_iff game _).2 h6⟩
  refine ⟨⟨?_, ?_⟩, ?_, ?_, ?_, by decide, by decide⟩
  · rintro ⟨game1, hp, hne⟩
    rcases MoveAction.Perform_dichotomy action hmap with ⟨entity, current, hadm, _⟩ | ⟨_, h0⟩
    · exact ⟨entity, current, hadm.found, hadm.mover, hadm.positioner, hadm.allowed,
        hadm.noWall, (Game.collision_free_iff game _).1 hadm.noPlayer⟩
    · rw [h0, Except.ok.injEq] at hp
      exact absurd hp.symm hne
  · rintro ⟨entity, current, h1, h2, h3, h4, h5, h6⟩
    have hadm := hgates entity current h1 h2 h3 h4 h5 h6
    exact ⟨_, MoveAction.Perform_of_admitted hadm, MoveAction.commit_ne hadm _⟩
  · intro entity current h1 h2 h3 h4 h5 h6
    have hadm := hgates entity current h1 h2 h3 h4 h5 h6
    refine ⟨_, MoveAction.Perform_of_admitted hadm, MoveAction.commit_GetEntity _ h1,
      Entity.Position?_Move _ h3, ?_, ?_⟩
    · simp [MoveAction.commit_lastAction]
    · intro hnone
      rw [MoveAction.commit_ChangeChannel, hnone]
      rfl
  · intro current
    have hx := wrap64_of_isInt64 current.okX
    have hy := wrap64_of_isInt64 current.okY
    have h1 : displacement DirectionUp = { X := 0, Y := -1 } := by decide
    have h2 : displacement DirectionDown = { X := 0, Y := 1 } := by decide
    have h3 : displacement DirectionLeft = { X := -1, Y := 0 } := by decide
    have h4 : displacement DirectionRight = { X := 1, Y := 0 } := by decide
    rw [h1, h2, h3, h4]
    simp only [Coordinate.Add_X, Coordinate.Add_Y, add_zero, hx, hy, sub_eq_add_neg]
    exact ⟨⟨trivial, trivial⟩, ⟨trivial, trivial⟩, ⟨trivial, trivial⟩, ⟨trivial, trivial⟩⟩
  · intro n h1 h2
    exact wrap64_of_isInt64 ⟨h1, by omega⟩

theorem C14_move_applied_iff_witness :
    ((∃ game1, MoveAction.Perform ⟨DirectionRight, exampleId 1, 0⟩ corridorGame = .ok game1 ∧
        game1 ≠ corridorGame) ↔
      ∃ entity current, corridorGame.GetEntity (exampleId 1) = some entity ∧
        entity.isMover = true ∧ entity.Position? = some current ∧
        corridorGame.checkLastActionTime (MoveAction.actionKey entity.ID) 0 moveThrottle
          = true ∧
        current.Add (displacement DirectionRight) ∉ corridorSymbols MapType.MapTypeWall ∧
        ∀ x ∈ corridorGame.Entities, x.isPlayer = true →
          x.Position? ≠ some (current.Add (displacement DirectionRight))) ∧
    (∀ entity current, corridorGame.GetEntity (exampleId 1) = some entity →
      entity.isMover = true → entity.Position? = some current →
      corridorGame.checkLastActionTime (MoveAction.actionKey entity.ID) 0 moveThrottle
        = true →
      current.Add (displacement DirectionRight) ∉ corridorSymbols MapType.MapTypeWall →
      (∀ x ∈ corridorGame.Entities, x.isPlayer = true →
        x.Position? ≠ some (current.Add (displacement DirectionRight))) →
      ∃ game1, MoveAction.Perform ⟨DirectionRight, exampleId 1, 0⟩ corridorGame = .ok game1 ∧
        game1.GetEntity (exampleId 1)
          = some (entity.Move (current.Add (displacement DirectionRight))) ∧
        (entity.Move (current.Add (displacement DirectionRight))).Position?
          = some (current.Add (displacement DirectionRight)) ∧
        game1.lastAction (MoveAction.actionKey entity.ID) = some 0 ∧
        (corridorGame.ChangeChannel = none → game1.ChangeChannel = some (Change.MoveChange
          (entity.Move (current.Add (displacement DirectionRight))) DirectionRight
          (current.Add (displacement DirectionRight))))) ∧
    (∀ current : Coordinate,
      ((current.Add (displacement DirectionUp)).X = current.X ∧
        (current.Add (displacement DirectionUp)).Y = wrap64 (current.Y - 1)) ∧
      ((current.Add (displacement DirectionDown)).X = current.X ∧
        (current.Add (displacement DirectionDown)).Y = wrap64 (current.Y + 1)) ∧
      ((current.Add (displacement DirectionLeft)).X = wrap64 (current.X - 1) ∧
        (current.Add (displacement DirectionLeft)).Y = current.Y) ∧
      ((current.Add (displacement DirectionRight)).X = wrap64 (current.X + 1) ∧
        (current.Add (displacement DirectionRight)).Y = current.Y)) ∧
    (∀ n : Int, -9223372036854775808 ≤ n → n ≤ 9223372036854775807 → wrap64 n = n) ∧
    wrap64 (9223372036854775807 + 1) = -9223372036854775808 ∧
    wrap64 (-9223372036854775808 - 1) = 9223372036854775807  :=
  C14_move_applied_iff corridorGame ⟨DirectionRight, exampleId 1, 0⟩ corridorSymbols rfl

/-- The move to the right at the largest `X`, evaluated: the candidate wraps to the smallest
`X`, where the other player is, and the move returns the state it was given. -/
theorem boundaryGame_move_right :
    ({ X := 9223372036854775807, Y := 0 } : Coordinate).Add (displacement DirectionRight)
      = { X := -9223372036854775808, Y := 0 } ∧
    MoveAction.Perform ⟨DirectionRight, exampleId 1, 0⟩ boundaryGame = .ok boundaryGame :=
  ⟨by decide, rfl⟩

/-- Claim C15: on a grid that is not empty a move is atomic. It passes every gate and is
applied in full, or it fails a gate (unknown entity, no `Mover`, no `Positioner`, throttle,
wall, player) and the state returned is the state given: table, positions, ledger, change
slot, scores and round fields. -/
theorem C15_move_atomic (game : Game) (action : MoveAction) (symbols : Symbols)
    (hmap : game.GetMapByType = .ok symbols) :
    ((∃ entity current, action.Admitted game entity current symbols ∧
        action.Perform game =
          .ok (action.commit game entity (current.Add (displacement action.Direction)))) ∨
      ((¬ ∃ entity current, action.Admitted game entity current symbols) ∧
        action.Perform game = .ok game)) ∧
    (game.GetEntity action.ID = none → action.Perform game = .ok game) ∧
    (∀ entity, game.GetEntity action.ID = some entity →
      (entity.isMover = false ∨ entity.Position? = none ∨
        game.checkLastActionTime (MoveAction.actionKey entity.ID) action.Created moveThrottle
          = false ∨
        ∃ current, entity.Position? = some current ∧
          (current.Add (displacement action.Direction) ∈ symbols MapType.MapTypeWall ∨
            ∃ x ∈ game.Entities, x.isPlayer = true ∧
              x.Position? = some (current.Add (displacement action.Direction)))) →
      action.Perform game = .ok game) := by
  have hdich := MoveAction.Perform_dichotomy action hmap
  have hdrop : (¬ ∃ entity current, action.Admitted game entity current symbols) →
      action.Perform game = .ok game := by
    intro hno
    rcases hdich with ⟨entity, current, hadm, _⟩ | ⟨_, h0⟩
    · exact absurd ⟨entity, current, hadm⟩ hno
    · exact h0
  refine ⟨hdich, ?_, ?_⟩
  · intro hnone
    apply hdrop
    rintro ⟨entity, current, hadm⟩
    have := hadm.found
    rw [hnone] at this
    cases this
  · intro entity hfound hfail
    apply hdrop
    rintro ⟨entity1, current1, hadm⟩
    have he := hadm.found
    rw [hfound, Option.some.injEq] at he
    subst he
    rcases hfail with h | h | h | ⟨current, hpos, h⟩
    · have := hadm.mover
      rw [h] at this
      cases this
    · have := hadm.positioner
      rw [h] at this
      cases this
    · have := hadm.allowed
      rw [h] at this
      cases this
    · have hc := hadm.positioner
      rw [hpos, Option.some.injEq] at hc
      subst hc
      rcases h with hw | ⟨x, hx, hpl, hxp⟩
      · exact hadm.noWall hw
      · exact (Game.collision_free_iff game _).1 hadm.noPlayer x hx hpl hxp

theorem C15_move_atomic_witness :
    ((∃ entity current, MoveAction.Admitted ⟨DirectionRight, exampleId 1, 0⟩ arenaGame entity
          current arenaSymbols ∧
        MoveAction.Perform ⟨DirectionRight, exampleId 1, 0⟩ arenaGame =
          .ok (MoveAction.commit ⟨DirectionRight, exampleId 1, 0⟩ arenaGame entity
            (current.Add (displacement DirectionRight)))) ∨
      ((¬ ∃ entity current, MoveAction.Admitted ⟨DirectionRight, exampleId 1, 0⟩ arenaGame
          entity current arenaSymbols) ∧
        MoveAction.Perform ⟨DirectionRight, exampleId 1, 0⟩ arenaGame = .ok arenaGame)) ∧
    (arenaGame.GetEntity (exampleId 1) = none →
      MoveAction.Perform ⟨DirectionRight, exampleId 1, 0⟩ arenaGame = .ok arenaGame) ∧
    (∀ entity, arenaGame.GetEntity (exampleId 1) = some entity →
      (entity.isMover = false ∨ entity.Position? = none ∨
        arenaGame.checkLastActionTime (MoveAction.actionKey entity.ID) 0 moveThrottle
          = false ∨
        ∃ current, entity.Position? = some current ∧
          (current.Add (displacement DirectionRight) ∈ arenaSymbols MapType.MapTypeWall ∨
            ∃ x ∈ arenaGame.Entities, x.isPlayer = true ∧
              x.Position? = some (current.Add (displacement DirectionRight)))) →
      MoveAction.Perform ⟨DirectionRight, exampleId 1, 0⟩ arenaGame = .ok arenaGame) :=
  C15_move_atomic arenaGame ⟨DirectionRight, exampleId 1, 0⟩ arenaSymbols rfl

/-- Claim C16: a move of the entity `action.ID` leaves as they were the table entry of every
other identifier, the ledger entry of every key but the move key of `action.ID`, hence the
answer of `checkLastActionTime` for the moves of every other entity, the scores,
`WaitForRound`, `NewRoundAt`, `RoundWinner`, the spawn cursor and the grid; distinct
identifiers have distinct throttle keys. -/
theorem C16_move_frame (game game1 : Game) (action : MoveAction)
    (h : action.Perform game = .ok game1) :
    (∀ id, id ≠ action.ID → game1.GetEntity id = game.GetEntity id) ∧
    (∀ x ∈ game.Entities, x.ID ≠ action.ID → x ∈ game1.Entities) ∧
    (∀ k, k ≠ MoveAction.actionKey action.ID → game1.lastAction k = game.lastAction k) ∧
    (∀ id, id ≠ action.ID → ∀ created throttle,
      game1.checkLastActionTime (MoveAction.actionKey id) created throttle =
        game.checkLastActionTime (MoveAction.actionKey id) created throttle) ∧
    game1.Score = game.Score ∧ game1.WaitForRound = game.WaitForRound ∧
    game1.NewRoundAt = game.NewRoundAt ∧ game1.RoundWinner = game.RoundWinner ∧
    game1.spawnPointIndex = game.spawnPointIndex ∧ game1.gameMap = game.gameMap ∧
    (∀ id1 id2 : UUID, id1 ≠ id2 → MoveAction.actionKey id1 ≠ MoveAction.actionKey id2) := by
  have hkeys : ∀ id1 id2 : UUID, id1 ≠ id2 →
      MoveAction.actionKey id1 ≠ MoveAction.actionKey id2 :=
    fun id1 id2 hne heq => hne (MoveAction.actionKey_inj heq)
  rcases MoveAction.Perform_outcome action game with h0 | ⟨h0, _⟩ | ⟨e, c, sp, hadm, h0⟩
  · rw [h0, Except.ok.injEq] at h
    subst h
    exact ⟨fun _ _ => rfl, fun x hx _ => hx, fun _ _ => rfl, fun _ _ _ _ => rfl, rfl, rfl, rfl,
      rfl, rfl, rfl, hkeys⟩
  · rw [h0] at h
    cases h
  · rw [h0, Except.ok.injEq] at h
    subst h
    have hid : e.ID = action.ID := (Game.GetEntity_some hadm.found).2
    have hledger : ∀ k, k ≠ MoveAction.actionKey action.ID →
        (action.commit game e (c.Add (displacement action.Direction))).lastAction k
          = game.lastAction k := by
      intro k hk
      rw [MoveAction.commit_lastAction, hid, if_neg hk]
    refine ⟨fun id hne => MoveAction.commit_GetEntity_other e _ hne, ?_, hledger, ?_, ?_, ?_, ?_,
      ?_, ?_, ?_, hkeys⟩
    · intro x hx hne
      rw [MoveAction.commit_Entities]
      exact List.mem_map.2 ⟨x, hx, by simp [hne]⟩
    · intro id hne created throttle
      unfold Game.checkLastActionTime
      rw [hledger _ (hkeys id action.ID hne)]
    all_goals
      simp [MoveAction.commit, Game.updateLastActionTime, Game.moveEntity, Game.sendChange]
      try (cases game.ChangeChannel <;> rfl)

set_option maxRecDepth 100000 in
theorem C16_move_frame_witness :
    (∀ id, id ≠ exampleId 1 → movedGame.GetEntity id = localGame.GetEntity id) ∧
    (∀ x ∈ localGame.Entities, x.ID ≠ exampleId 1 → x ∈ movedGame.Entities) ∧
    (∀ k, k ≠ MoveAction.actionKey (exampleId 1) →
      movedGame.lastAction k = localGame.lastAction k) ∧
    (∀ id, id ≠ exampleId 1 → ∀ created throttle,
      movedGame.checkLastActionTime (MoveAction.actionKey id) created throttle =
        localGame.checkLastActionTime (MoveAction.actionKey id) created throttle) ∧
    movedGame.Score = localGame.Score ∧ movedGame.WaitForRound = localGame.WaitForRound ∧
    movedGame.NewRoundAt = localGame.NewRoundAt ∧
    movedGame.RoundWinner = localGame.RoundWinner ∧
    movedGame.spawnPointIndex = localGame.spawnPointIndex ∧
    movedGame.gameMap = localGame.gameMap ∧
    (∀ id1 id2 : UUID, id1 ≠ id2 → MoveAction.actionKey id1 ≠ MoveAction.actionKey id2) :=
  C16_move_frame localGame movedGame ⟨DirectionUp, exampleId 1, 0⟩ rfl

/-- Claim C17: the synchronous part of `queueNewRound w`, the clock reading `now`, sets
`WaitForRound`, records `w` as `RoundWinner` and `now` plus `newRoundWaitTime`, ten seconds,
as `NewRoundAt`, puts `RoundOverChange` into the change slot if it was empty, and leaves the
table, the scores, the ledger, the grid and the spawn cursor as they were. -/
theorem C17_queue_new_round (game : Game) (w : UUID) (now : Time) :
    (game.queueNewRound w now).WaitForRound = true ∧
    (game.queueNewRound w now).RoundWinner = w ∧
    (game.queueNewRound w now).NewRoundAt = now + newRoundWaitTime ∧
    newRoundWaitTime = 10 * Second ∧ Second = 1000000000 ∧
    (game.ChangeChannel = none →
      (game.queueNewRound w now).ChangeChannel = some Change.RoundOverChange) ∧
    (∀ c, game.ChangeChannel = some c → (game.queueNewRound w now).ChangeChannel = some c) ∧
    (game.queueNewRound w now).Entities = game.Entities ∧
    (game.queueNewRound w now).Score = game.Score ∧
    (game.queueNewRound w now).lastAction = game.lastAction ∧
    (game.queueNewRound w now).gameMap = game.gameMap ∧
    (game.queueNewRound w now).spawnPointIndex = game.spawnPointIndex := by
  unfold Game.queueNewRound Game.sendChange
  cases h : game.ChangeChannel <;>
    simp [h, newRoundWaitTime, Second, Millisecond]

/-- Claim C18, at a concrete state: with three spawn points, four players and the cursor at
0, the cursor after `startNewRound` is 0 and not `(0 + 4) mod 3`. -/
theorem C18_counterexample :
    (arena5Symbols MapType.MapTypeSpawn).length = 3 ∧ fourPlayerGame.players.length = 4 ∧
    fourPlayerGame.spawnPointIndex = 0 ∧
    (match fourPlayerGame.startNewRound with
      | .ok game1 => some game1.spawnPointIndex
      | .error _ => none) = some 0 ∧
    (match fourPlayerGame.startNewRound with
      | .ok game1 => some game1.spawnPointIndex
      | .error _ => none) ≠ some ((fourPlayerGame.spawnPointIndex + 4) % 3) := by
  decide

/-- Claim C18, amended: with `N ≥ 1` spawn points `startNewRound` neither reads nor writes
the spawn cursor: the cursor after the round is the cursor before it, and the players are
placed by a counter that starts at 0 in the round, the player number `i` of the enumeration
going to the spawn point number `i mod N`. -/
theorem C18_spawn_cursor_untouched (game : Game) (symbols : Symbols)
    (hmap : game.GetMapByType = .ok symbols)
    (hN : 1 ≤ (symbols MapType.MapTypeSpawn).length) :
    ∃ game1, game.startNewRound = .ok game1 ∧
      game1.spawnPointIndex = game.spawnPointIndex ∧
      (∀ i e, game.players[i]? = some e →
        ∃ c, (symbols MapType.MapTypeSpawn)[i % (symbols MapType.MapTypeSpawn).length]? = some c ∧
          game1.players[i]? = some (e.Move c)) := by
  have hsp : symbols MapType.MapTypeSpawn ≠ [] := List.length_pos.1 hN
  obtain ⟨es1, hr, hstart⟩ := Game.startNewRound_eq hmap hsp
  obtain ⟨es2, hr2, _, _, hk⟩ := respawnLoop_spec _ hsp game.Entities 0
  rw [hr, Except.ok.injEq] at hr2
  subst hr2
  refine ⟨_, hstart, ?_, ?_⟩
  · unfold Game.sendChange
    cases game.ChangeChannel <;> rfl
  · intro i e he
    simpa [Game.players] using hk i e he

theorem C18_spawn_cursor_untouched_witness :
    ∃ game1, fourPlayerGame.startNewRound = .ok game1 ∧
      game1.spawnPointIndex = fourPlayerGame.spawnPointIndex ∧
      (∀ i e, fourPlayerGame.players[i]? = some e →
        ∃ c, (arena5Symbols MapType.MapTypeSpawn)[i %
            (arena5Symbols MapType.MapTypeSpawn).length]? = some c ∧
          game1.players[i]? = some (e.Move c)) :=
  C18_spawn_cursor_untouched fourPlayerGame arena5Symbols rfl (by decide)

/-- Claim C20: on the grid of `NewGame` the spawn slice has nine coordinates and
`startNewRound` returns a state, whatever the entity table; on a grid without a spawn cell a
table with a player makes `startNewRound` panic with a division by zero. -/
theorem C20_start_new_round_total (game : Game) (hmap : game.gameMap = MapDefault) :
    (∃ symbols, game.GetMapByType = .ok symbols ∧
      (symbols MapType.MapTypeSpawn).length = 9) ∧
    (∃ game1, game.startNewRound = .ok game1) ∧
    (∀ (other : Game) (symbols : Symbols), other.GetMapByType = .ok symbols →
      symbols MapType.MapTypeSpawn = [] → (∃ e ∈ other.Entities, e.isPlayer = true) →
      other.startNewRound = .error Panic.divideByZero) := by
  have hsym := NewGame_symbols hmap
  have hlen : (defaultSymbols MapType.MapTypeSpawn).length = 9 := by
    rw [defaultSymbols_spawn]
    rfl
  have hsp : defaultSymbols MapType.MapTypeSpawn ≠ [] := by
    intro h
    rw [h] at hlen
    cases hlen
  obtain ⟨es1, _, hstart⟩ := Game.startNewRound_eq hsym hsp
  refine ⟨⟨_, hsym, hlen⟩, ⟨_, hstart⟩, ?_⟩
  intro other symbols hm hnil hex
  have hm1 : Game.GetMapByType { other with WaitForRound := false, Score := fun _ => none }
      = .ok symbols := by
    rw [← hm]
    exact Game.GetMapByType_congr rfl
  unfold Game.startNewRound
  simp only [hm1, hnil, respawnLoop_no_spawn other.Entities 0 hex]

theorem C20_start_new_round_total_witness :
    (∃ symbols, localGame.GetMapByType = .ok symbols ∧
      (symbols MapType.MapTypeSpawn).length = 9) ∧
    (∃ game1, localGame.startNewRound = .ok game1) ∧
    (∀ (other : Game) (symbols : Symbols), other.GetMapByType = .ok symbols →
      symbols MapType.MapTypeSpawn = [] → (∃ e ∈ other.Entities, e.isPlayer = true) →
      other.startNewRound = .error Panic.divideByZero) :=
  C20_start_new_round_total localGame rfl

/-- The round of `noSpawnGame`, evaluated: a division by zero. -/
theorem noSpawnGame_round : noSpawnGame.startNewRound = .error Panic.divideByZero :=
  rfl

/-- Claim C19: on the default map, when every player is at a coordinate that is no wall, with
`-19 ≤ X ≤ 18` and `-19 ≤ Y ≤ 18`, every finite sequence of `MoveAction.Perform` and
`startNewRound` calls runs to its end and leaves every player at such a coordinate. -/
theorem C19_arena_containment (game : Game) (steps : List Step)
    (hmap : game.gameMap = MapDefault) (hwf : game.WF) (hin : game.Contained) :
    ∃ game1, runSteps steps game = .ok game1 ∧ game1.Contained ∧
      game1.gameMap = MapDefault ∧
      ∀ e ∈ game1.Entities, e.isPlayer = true →
        ∃ c, e.Position? = some c ∧ c ∉ defaultSymbols MapType.MapTypeWall ∧
          -19 ≤ c.X ∧ c.X ≤ 18 ∧ -19 ≤ c.Y ∧ c.Y ≤ 18 := by
  obtain ⟨game1, hrun, hm1, _, hc1⟩ := runSteps_contained steps game hmap hwf hin
  refine ⟨game1, hrun, hc1, hm1, ?_⟩
  intro e he hpl
  have := hc1 e he hpl
  unfold Entity.inArena at this
  cases hpos : e.Position? with
  | none => simp [hpos] at this
  | some c =>
    simp only [hpos] at this
    exact ⟨c, rfl, this⟩

set_option maxRecDepth 100000 in
theorem C19_arena_containment_witness :
    ∃ game1, runSteps [.move ⟨DirectionUp, exampleId 1, 0⟩, .newRound,
        .move ⟨DirectionLeft, exampleId 2, Second⟩] duelGame = .ok game1 ∧
      game1.Contained ∧ game1.gameMap = MapDefault ∧
      ∀ e ∈ game1.Entities, e.isPlayer = true →
        ∃ c, e.Position? = some c ∧ c ∉ defaultSymbols MapType.MapTypeWall ∧
          -19 ≤ c.X ∧ c.X ≤ 18 ∧ -19 ≤ c.Y ∧ c.Y ≤ 18 :=
  C19_arena_containment duelGame _ rfl (by decide) (by decide)

end Backend
